import Mathlib

/-!
Verification development for the music-visualizer component
(`src/app/page.tsx`).

The component manages a Web Audio processing graph with two possible
sources (an uploaded audio file, or a microphone capture stream), a
shared `AnalyserNode`, a `GainNode`, and the context destination, plus a
`requestAnimationFrame`-driven render loop.  We embed the component's
mutable refs and React state as one record, audio nodes and streams as
ids handed out by an allocator (fresh ids model object identity), and
each event handler as a state-transition function translated line by
line from the source.  The two canvas renderers (`drawBars`,
`drawCircle`) are embedded as pure functions over exact rationals.
-/

/-- An endpoint of a Web Audio connection: either an ordinary node
(identified by its allocation id) or the context destination
(`audioContext.destination`, the engine output). -/
inductive Endpoint where
  | node (id : Nat)
  | destination
deriving DecidableEq, Repr

/-- The observable state of the hidden `<audio>` element: its `src`
attribute, playback position, and paused flag. -/
structure AudioElement where
  src : String
  currentTime : Nat
  paused : Bool
deriving DecidableEq, Repr

/-- The `micPermission` React state of the component. -/
inductive MicPerm where
  | granted
  | denied
  | pending
deriving DecidableEq, Repr

/-- An uploaded audio file; object URLs are modelled as a function of
the file (`objectURL`). -/
structure AudioFile where
  name : String
deriving DecidableEq, Repr

/-- Model of `URL.createObjectURL` applied to an uploaded file. -/
def objectURL (f : AudioFile) : String :=
  "blob:" ++ f.name

/-- The component's combined ref/state record.

Refs holding Web Audio objects (`audioContextRef`, `analyserRef`,
`fileSourceRef`, `micSourceRef`, `micStreamRef`, `gainNodeRef`,
`animationIdRef`) hold allocation ids; `nextId` is the allocator, so an
id already stored is always distinct from any id allocated later.
`edges` is the set of live `connect` edges of the audio graph.
`pendingFrame` is the browser-side pending `requestAnimationFrame`
callback (the component keeps at most one live scheduling chain, so a
single slot is faithful).  `stoppedStreams` records capture streams all
of whose tracks have had `stop()` called; `micRequests` counts
`getUserMedia` invocations. -/
structure VisState where
  audioContext : Option Nat := none
  analyser : Option Nat := none
  fileSource : Option Nat := none
  micSource : Option Nat := none
  micStream : Option Nat := none
  gainNode : Option Nat := none
  animationId : Option Nat := none
  pendingFrame : Option Nat := none
  edges : List (Nat × Endpoint) := []
  nextId : Nat := 0
  stoppedStreams : List Nat := []
  micRequests : Nat := 0
  audioElem : AudioElement := ⟨"", 0, true⟩
  isPlaying : Bool := false
  fileName : String := ""
  isMicActive : Bool := false
  micPermission : MicPerm := .pending
  currentTime : Nat := 0
  duration : Nat := 0
deriving DecidableEq, Repr

/-- The freshly mounted component: all refs null, all state at its
`useState` initial value. -/
def init : VisState := {}

/-- `node.disconnect()`: removes every outgoing connection of `n`.
This never raises; on an already-disconnected node it removes
nothing. -/
def disconnectEdges (edges : List (Nat × Endpoint)) (n : Nat) : List (Nat × Endpoint) :=
  edges.filter (fun e => e.1 != n)

/-- Guarded disconnect, as in `if (ref.current) try { ref.current.disconnect() }`. -/
def disconnectOpt (edges : List (Nat × Endpoint)) (o : Option Nat) : List (Nat × Endpoint) :=
  match o with
  | none => edges
  | some n => disconnectEdges edges n

/-- `cancelAnimationFrame(x)`: drops the pending frame callback if it is
the one with id `x`. -/
def cancelAnimation (s : VisState) (x : Nat) : VisState :=
  if s.pendingFrame = some x then { s with pendingFrame := none } else s

/-- `if (animationIdRef.current) cancelAnimationFrame(animationIdRef.current)` —
the teardown tail shared by `stopMicrophone` and `stopAudioFile`. -/
def cancelViaRef (s : VisState) : VisState :=
  match s.animationId with
  | some x => cancelAnimation s x
  | none => s

/-- The `draw()` callback: returns early when no analyser is installed,
otherwise renders one frame and schedules the next callback, storing its
id in `animationIdRef`. -/
def draw (s : VisState) : VisState :=
  match s.analyser with
  | none => s
  | some _ =>
    { s with pendingFrame := some s.nextId, animationId := some s.nextId,
             nextId := s.nextId + 1 }

/-- The browser firing the pending `requestAnimationFrame` callback:
the callback is consumed and `draw` runs.  With no pending callback
nothing happens. -/
def frameFire (s : VisState) : VisState :=
  match s.pendingFrame with
  | none => s
  | some _ => draw { s with pendingFrame := none }

/-- The body of `stopMicrophone` before its final frame cancellation:
stop every track of the capture stream and drop it, disconnect and drop
the mic source, clear the active/playing flags. -/
def micStopCore (s : VisState) : VisState :=
  let s1 :=
    match s.micStream with
    | some m => { s with stoppedStreams := m :: s.stoppedStreams, micStream := none }
    | none => s
  let s2 :=
    match s1.micSource with
    | some n => { s1 with edges := disconnectEdges s1.edges n, micSource := none }
    | none => s1
  { s2 with isMicActive := false, isPlaying := false }

/-- `stopMicrophone`: the teardown body followed by cancellation of the
pending frame. -/
def stopMicrophone (s : VisState) : VisState :=
  cancelViaRef (micStopCore s)

/-- The body of `stopAudioFile` before its final frame cancellation:
pause the element, reset its position, clear its `src`; disconnect the
analyser (but not the file source) and the gain node; clear the
file-related React state. -/
def fileStopCore (s : VisState) : VisState :=
  let s1 := { s with audioElem := ⟨"", 0, true⟩ }
  let s2 := { s1 with edges := disconnectOpt s1.edges s1.analyser }
  let s3 := { s2 with edges := disconnectOpt s2.edges s2.gainNode }
  { s3 with fileName := "", isPlaying := false, currentTime := 0, duration := 0 }

/-- `stopAudioFile`: the teardown body followed by cancellation of the
pending frame. -/
def stopAudioFile (s : VisState) : VisState :=
  cancelViaRef (fileStopCore s)

/-- Lazy creation of the shared `AudioContext` (`if (!audioContextRef.current) ...`). -/
def ensureContext (s : VisState) : VisState :=
  match s.audioContext with
  | some _ => s
  | none => { s with audioContext := some s.nextId, nextId := s.nextId + 1 }

/-- Embeds `initializeAudioContext` from the source: ensure the context,
disconnect the gain node and the previous analyser, create the media
element source only once (reusing `fileSourceRef` when present), create
a fresh analyser (fftSize 256), and connect
source → analyser → destination. -/
def initAudioContext (s : VisState) : VisState :=
  let s1 := ensureContext s
  let s2 := { s1 with edges := disconnectOpt s1.edges s1.gainNode }
  let s3 := { s2 with edges := disconnectOpt s2.edges s2.analyser }
  let p :=
    match s3.fileSource with
    | some n => (n, s3)
    | none => (s3.nextId, { s3 with fileSource := some s3.nextId, nextId := s3.nextId + 1 })
  let src := p.1
  let s4 := p.2
  let an := s4.nextId
  let s5 := { s4 with nextId := s4.nextId + 1 }
  { s5 with analyser := some an,
            edges := (an, Endpoint.destination) :: (src, Endpoint.node an) :: s5.edges }

/-- The prefix of `handleFileUpload` that runs before
`initializeAudioContext`: stop the microphone when it is active, record
the file name, point the element at the new object URL and `load()` it
(which pauses and resets the position). -/
def fileLoadBase (f : AudioFile) (s : VisState) : VisState :=
  { (if s.isMicActive then stopMicrophone s else s) with
    fileName := f.name, audioElem := ⟨objectURL f, 0, true⟩ }

/-- Embeds `handleFileUpload`: the prefix above, then the graph rebuild
(`initializeAudioContext`), then the deferred `play()` starts playback
and the playing flag is set. -/
def handleFileUpload (f : AudioFile) (s : VisState) : VisState :=
  let s4 := initAudioContext (fileLoadBase f s)
  { s4 with audioElem := { s4.audioElem with paused := false }, isPlaying := true }

/-- The prefix of `initializeMicAudioContext` that runs before the
capture stream is requested: clear the file path (`stopAudioFile`),
ensure the context, disconnect the previous analyser, install a fresh
analyser (fftSize 256), and lazily create the gain node. -/
def micPrep (s : VisState) : VisState :=
  let s1 := stopAudioFile s
  let s2 := ensureContext s1
  let s3 := { s2 with edges := disconnectOpt s2.edges s2.analyser }
  let s4 := { s3 with analyser := some s3.nextId, nextId := s3.nextId + 1 }
  match s4.gainNode with
  | some _ => s4
  | none => { s4 with gainNode := some s4.nextId, nextId := s4.nextId + 1 }

/-- The suffix of `initializeMicAudioContext`: when no stream is held,
`getUserMedia` is invoked — `grant` is the browser's answer.  On grant a
fresh stream and a fresh mic source are created and the source is
connected to the analyser only (never to the destination); on denial
the `catch` branch records the denied permission.  When a stream is
already held the request is skipped.  On every non-throwing path the mic
becomes active and `draw()` starts the loop. -/
def micAcquire (grant : Bool) (s : VisState) : VisState :=
  match s.micStream with
  | some _ => draw { s with isMicActive := true, isPlaying := true }
  | none =>
    if grant then
      let m := s.nextId
      let s1 := { s with micStream := some m, nextId := s.nextId + 1,
                         micRequests := s.micRequests + 1, micPermission := .granted }
      let src := s1.nextId
      let s2 := { s1 with micSource := some src, nextId := s1.nextId + 1,
                          edges := (src, Endpoint.node (s1.analyser.getD 0)) :: s1.edges }
      draw { s2 with isMicActive := true, isPlaying := true }
    else
      { s with micRequests := s.micRequests + 1, micPermission := .denied }

/-- Embeds `initializeMicAudioContext`: file teardown and graph
preparation run first, then the capture stream is acquired. -/
def initMicAudioContext (grant : Bool) (s : VisState) : VisState :=
  micAcquire grant (micPrep s)

/-- The user-driven operations of the component, plus the browser
firing a scheduled frame callback. -/
inductive Op where
  | loadFile (f : AudioFile)
  | startMic (grant : Bool)
  | stopMic
  | stopFile
  | frame
deriving DecidableEq, Repr

/-- One step of the component under an operation. -/
def step (op : Op) (s : VisState) : VisState :=
  match op with
  | .loadFile f => handleFileUpload f s
  | .startMic g => initMicAudioContext g s
  | .stopMic => stopMicrophone s
  | .stopFile => stopAudioFile s
  | .frame => frameFire s

/-- Run an operation sequence from the freshly mounted component. -/
def run (ops : List Op) : VisState :=
  ops.foldl (fun s o => step o s) init

/-- A valid operation: file loads carry a real (non-empty) file name. -/
def validOp (o : Op) : Bool :=
  match o with
  | .loadFile f => f.name != ""
  | _ => true

/-- All file loads in the sequence are valid. -/
def ValidOps (ops : List Op) : Prop :=
  ∀ o ∈ ops, validOp o = true

/-- States reachable by some operation sequence. -/
def Reaches (s : VisState) : Prop :=
  ∃ ops, run ops = s

/-- States reachable by some valid operation sequence. -/
def ReachesValid (s : VisState) : Prop :=
  ∃ ops, ValidOps ops ∧ run ops = s

/-- The three source modes of the graph manager.  The component derives
its displayed mode exactly this way (mic flag first, then file name). -/
inductive Mode where
  | idle
  | fileActive
  | micActive
deriving DecidableEq, Repr

/-- Derived mode of a state. -/
def modeOf (s : VisState) : Mode :=
  if s.isMicActive then .micActive
  else if s.fileName = "" then .idle
  else .fileActive

/-- A live connection into the engine output (context destination). -/
def destLive (s : VisState) : Prop :=
  ∃ e ∈ s.edges, e.2 = Endpoint.destination

/-- The microphone source is connected to something. -/
def micConn (s : VisState) : Prop :=
  ∃ e ∈ s.edges, s.micSource = some e.1

/-- One bar of the bar-mode rendering: the filled rectangle
(`x`, `y`, `w`, `h`, anchored to the bottom edge via `y = height - h`),
its HSL fill, and the 2-unit reflection cap drawn just above the top. -/
structure Bar where
  x : ℚ
  y : ℚ
  w : ℚ
  h : ℚ
  hue : ℚ
  sat : ℚ
  light : ℚ
  capY : ℚ
  capH : ℚ
  capLight : ℚ
deriving DecidableEq, Repr

/-- The bar drawn for bin `i` holding magnitude `v`, with left edge at
`x`, as in the loop body of `drawBars`. -/
def mkBar (height barWidth len : ℚ) (i : Nat) (v : Nat) (x : ℚ) : Bar :=
  let barHeight := (v : ℚ) / 255 * (height * 0.8)
  let hue := (i : ℚ) / len * 360
  { x := x, y := height - barHeight, w := barWidth, h := barHeight,
    hue := hue, sat := 100, light := 50,
    capY := height - barHeight - 2, capH := 2, capLight := 30 }

/-- The `for` loop of `drawBars`: `i` is the bin index, `x` the running
left edge, advanced by `barWidth + 1` per bar. -/
def drawBarsLoop (height barWidth len : ℚ) : List Nat → Nat → ℚ → List Bar
  | [], _, _ => []
  | v :: rest, i, x =>
    mkBar height barWidth len i v x :: drawBarsLoop height barWidth len rest (i + 1) (x + barWidth + 1)

/-- Embeds `drawBars`: clears to black (not modelled — no trails), then
draws one bar per bin with `barWidth = width / N * 2.5`. -/
def drawBars (width height : ℚ) (data : List Nat) : List Bar :=
  let barWidth := width / (data.length : ℚ) * 2.5
  drawBarsLoop height barWidth (data.length : ℚ) data 0 0

/-- One radial spike of the circle-mode rendering.  `angleTurns` is
`i / spikes` (the drawn angle is this times `2π`; the trigonometric
endpoints are determined by it together with `spikeLength`). -/
structure Spike where
  angleTurns : ℚ
  frequency : ℚ
  spikeLength : ℚ
  hue : ℚ
  lineWidth : ℚ
  lightness : ℚ
deriving DecidableEq, Repr

/-- The spike drawn for bin `i` holding magnitude `v`, as in the loop
body of `drawCircle`. -/
def mkSpike (radius maxSpikeLength spikes : ℚ) (i : Nat) (v : Nat) : Spike :=
  let frequency := (v : ℚ) / 255
  { angleTurns := (i : ℚ) / spikes, frequency := frequency,
    spikeLength := radius + frequency * maxSpikeLength,
    hue := (i : ℚ) / spikes * 360,
    lineWidth := 2 + frequency * 3,
    lightness := 50 + frequency * 20 }

/-- The `for` loop of `drawCircle` over the bins. -/
def drawCircleLoop (radius maxSpikeLength spikes : ℚ) : List Nat → Nat → List Spike
  | [], _ => []
  | v :: rest, i => mkSpike radius maxSpikeLength spikes i v :: drawCircleLoop radius maxSpikeLength spikes rest (i + 1)

/-- `Array.prototype.reduce((a, b) => a + b)` with no initial value:
throws on an empty array, otherwise folds from the first element. -/
def jsReduceSum : List Nat → Option Nat
  | [] => none
  | v :: rest => some (rest.foldl (· + ·) v)

/-- The geometry produced by one `drawCircle` frame: the reference
circle, the spikes, and the three center discs whose sizes are driven by
the average magnitude. -/
structure CircleGeom where
  centerX : ℚ
  centerY : ℚ
  radius : ℚ
  maxSpikeLength : ℚ
  spikes : List Spike
  avgFrequency : ℚ
  glowSize : ℚ
  glowAlpha : ℚ
  outerGlowRadius : ℚ
  centerRadius : ℚ
  innerRadius : ℚ
deriving DecidableEq, Repr

/-- Embeds `drawCircle`.  Returns `none` exactly when the snapshot is
empty, where the source's initial-value-free `reduce` would throw. -/
def drawCircle (width height : ℚ) (data : List Nat) : Option CircleGeom :=
  let centerX := width / 2
  let centerY := height / 2
  let radius := min centerX centerY * 0.4
  let spikes := (data.length : ℚ)
  let maxSpikeLength := min centerX centerY * 0.6
  let spikeList := drawCircleLoop radius maxSpikeLength spikes data 0
  match jsReduceSum data with
  | none => none
  | some total =>
    let avgFrequency := (total : ℚ) / (data.length : ℚ) / 255
    let glowSize := 15 + avgFrequency * 10
    some { centerX := centerX, centerY := centerY, radius := radius,
           maxSpikeLength := maxSpikeLength, spikes := spikeList,
           avgFrequency := avgFrequency, glowSize := glowSize,
           glowAlpha := 0.3 * avgFrequency,
           outerGlowRadius := glowSize + 10,
           centerRadius := glowSize,
           innerRadius := glowSize * 0.5 }

/-- The fixed transform size of every analyser the component creates
(`analyser.fftSize = 256`). -/
def fftSize : Nat := 256

/-- Snapshot length: `frequencyBinCount = fftSize / 2`. -/
def frequencyBinCount : Nat := fftSize / 2


/-! ### Projection lemmas for the small helper functions -/

@[simp] theorem cancelViaRef_audioContext (s : VisState) : (cancelViaRef s).audioContext = s.audioContext := by
  unfold cancelViaRef cancelAnimation
  split <;> first | rfl | (split <;> rfl)

@[simp] theorem cancelViaRef_analyser (s : VisState) : (cancelViaRef s).analyser = s.analyser := by
  unfold cancelViaRef cancelAnimation
  split <;> first | rfl | (split <;> rfl)

@[simp] theorem cancelViaRef_fileSource (s : VisState) : (cancelViaRef s).fileSource = s.fileSource := by
  unfold cancelViaRef cancelAnimation
  split <;> first | rfl | (split <;> rfl)

@[simp] theorem cancelViaRef_micSource (s : VisState) : (cancelViaRef s).micSource = s.micSource := by
  unfold cancelViaRef cancelAnimation
  split <;> first | rfl | (split <;> rfl)

@[simp] theorem cancelViaRef_micStream (s : VisState) : (cancelViaRef s).micStream = s.micStream := by
  unfold cancelViaRef cancelAnimation
  split <;> first | rfl | (split <;> rfl)

@[simp] theorem cancelViaRef_gainNode (s : VisState) : (cancelViaRef s).gainNode = s.gainNode := by
  unfold cancelViaRef cancelAnimation
  split <;> first | rfl | (split <;> rfl)

@[simp] theorem cancelViaRef_animationId (s : VisState) : (cancelViaRef s).animationId = s.animationId := by
  unfold cancelViaRef cancelAnimation
  split <;> first | rfl | (split <;> rfl)

@[simp] theorem cancelViaRef_edges (s : VisState) : (cancelViaRef s).edges = s.edges := by
  unfold cancelViaRef cancelAnimation
  split <;> first | rfl | (split <;> rfl)

@[simp] theorem cancelViaRef_nextId (s : VisState) : (cancelViaRef s).nextId = s.nextId := by
  unfold cancelViaRef cancelAnimation
  split <;> first | rfl | (split <;> rfl)

@[simp] theorem cancelViaRef_stoppedStreams (s : VisState) : (cancelViaRef s).stoppedStreams = s.stoppedStreams := by
  unfold cancelViaRef cancelAnimation
  split <;> first | rfl | (split <;> rfl)

@[simp] theorem cancelViaRef_micRequests (s : VisState) : (cancelViaRef s).micRequests = s.micRequests := by
  unfold cancelViaRef cancelAnimation
  split <;> first | rfl | (split <;> rfl)

@[simp] theorem cancelViaRef_audioElem (s : VisState) : (cancelViaRef s).audioElem = s.audioElem := by
  unfold cancelViaRef cancelAnimation
  split <;> first | rfl | (split <;> rfl)

@[simp] theorem cancelViaRef_isPlaying (s : VisState) : (cancelViaRef s).isPlaying = s.isPlaying := by
  unfold cancelViaRef cancelAnimation
  split <;> first | rfl | (split <;> rfl)

@[simp] theorem cancelViaRef_fileName (s : VisState) : (cancelViaRef s).fileName = s.fileName := by
  unfold cancelViaRef cancelAnimation
  split <;> first | rfl | (split <;> rfl)

@[simp] theorem cancelViaRef_isMicActive (s : VisState) : (cancelViaRef s).isMicActive = s.isMicActive := by
  unfold cancelViaRef cancelAnimation
  split <;> first | rfl | (split <;> rfl)

@[simp] theorem cancelViaRef_micPermission (s : VisState) : (cancelViaRef s).micPermission = s.micPermission := by
  unfold cancelViaRef cancelAnimation
  split <;> first | rfl | (split <;> rfl)

@[simp] theorem cancelViaRef_currentTime (s : VisState) : (cancelViaRef s).currentTime = s.currentTime := by
  unfold cancelViaRef cancelAnimation
  split <;> first | rfl | (split <;> rfl)

@[simp] theorem cancelViaRef_duration (s : VisState) : (cancelViaRef s).duration = s.duration := by
  unfold cancelViaRef cancelAnimation
  split <;> first | rfl | (split <;> rfl)

@[simp] theorem draw_audioContext (s : VisState) : (draw s).audioContext = s.audioContext := by
  unfold draw
  split <;> rfl

@[simp] theorem draw_analyser (s : VisState) : (draw s).analyser = s.analyser := by
  unfold draw
  split <;> rfl

@[simp] theorem draw_fileSource (s : VisState) : (draw s).fileSource = s.fileSource := by
  unfold draw
  split <;> rfl

@[simp] theorem draw_micSource (s : VisState) : (draw s).micSource = s.micSource := by
  unfold draw
  split <;> rfl

@[simp] theorem draw_micStream (s : VisState) : (draw s).micStream = s.micStream := by
  unfold draw
  split <;> rfl

@[simp] theorem draw_gainNode (s : VisState) : (draw s).gainNode = s.gainNode := by
  unfold draw
  split <;> rfl

@[simp] theorem draw_edges (s : VisState) : (draw s).edges = s.edges := by
  unfold draw
  split <;> rfl

@[simp] theorem draw_stoppedStreams (s : VisState) : (draw s).stoppedStreams = s.stoppedStreams := by
  unfold draw
  split <;> rfl

@[simp] theorem draw_micRequests (s : VisState) : (draw s).micRequests = s.micRequests := by
  unfold draw
  split <;> rfl

@[simp] theorem draw_audioElem (s : VisState) : (draw s).audioElem = s.audioElem := by
  unfold draw
  split <;> rfl

@[simp] theorem draw_isPlaying (s : VisState) : (draw s).isPlaying = s.isPlaying := by
  unfold draw
  split <;> rfl

@[simp] theorem draw_fileName (s : VisState) : (draw s).fileName = s.fileName := by
  unfold draw
  split <;> rfl

@[simp] theorem draw_isMicActive (s : VisState) : (draw s).isMicActive = s.isMicActive := by
  unfold draw
  split <;> rfl

@[simp] theorem draw_micPermission (s : VisState) : (draw s).micPermission = s.micPermission := by
  unfold draw
  split <;> rfl

@[simp] theorem draw_currentTime (s : VisState) : (draw s).currentTime = s.currentTime := by
  unfold draw
  split <;> rfl

@[simp] theorem draw_duration (s : VisState) : (draw s).duration = s.duration := by
  unfold draw
  split <;> rfl

@[simp] theorem ensureContext_analyser (s : VisState) : (ensureContext s).analyser = s.analyser := by
  unfold ensureContext
  split <;> rfl

@[simp] theorem ensureContext_fileSource (s : VisState) : (ensureContext s).fileSource = s.fileSource := by
  unfold ensureContext
  split <;> rfl

@[simp] theorem ensureContext_micSource (s : VisState) : (ensureContext s).micSource = s.micSource := by
  unfold ensureContext
  split <;> rfl

@[simp] theorem ensureContext_micStream (s : VisState) : (ensureContext s).micStream = s.micStream := by
  unfold ensureContext
  split <;> rfl

@[simp] theorem ensureContext_gainNode (s : VisState) : (ensureContext s).gainNode = s.gainNode := by
  unfold ensureContext
  split <;> rfl

@[simp] theorem ensureContext_animationId (s : VisState) : (ensureContext s).animationId = s.animationId := by
  unfold ensureContext
  split <;> rfl

@[simp] theorem ensureContext_pendingFrame (s : VisState) : (ensureContext s).pendingFrame = s.pendingFrame := by
  unfold ensureContext
  split <;> rfl

@[simp] theorem ensureContext_edges (s : VisState) : (ensureContext s).edges = s.edges := by
  unfold ensureContext
  split <;> rfl

@[simp] theorem ensureContext_stoppedStreams (s : VisState) : (ensureContext s).stoppedStreams = s.stoppedStreams := by
  unfold ensureContext
  split <;> rfl

@[simp] theorem ensureContext_micRequests (s : VisState) : (ensureContext s).micRequests = s.micRequests := by
  unfold ensureContext
  split <;> rfl

@[simp] theorem ensureContext_audioElem (s : VisState) : (ensureContext s).audioElem = s.audioElem := by
  unfold ensureContext
  split <;> rfl

@[simp] theorem ensureContext_isPlaying (s : VisState) : (ensureContext s).isPlaying = s.isPlaying := by
  unfold ensureContext
  split <;> rfl

@[simp] theorem ensureContext_fileName (s : VisState) : (ensureContext s).fileName = s.fileName := by
  unfold ensureContext
  split <;> rfl

@[simp] theorem ensureContext_isMicActive (s : VisState) : (ensureContext s).isMicActive = s.isMicActive := by
  unfold ensureContext
  split <;> rfl

@[simp] theorem ensureContext_micPermission (s : VisState) : (ensureContext s).micPermission = s.micPermission := by
  unfold ensureContext
  split <;> rfl

@[simp] theorem ensureContext_currentTime (s : VisState) : (ensureContext s).currentTime = s.currentTime := by
  unfold ensureContext
  split <;> rfl

@[simp] theorem ensureContext_duration (s : VisState) : (ensureContext s).duration = s.duration := by
  unfold ensureContext
  split <;> rfl

/-! ### Projection lemmas for the teardown cores -/

@[simp] theorem micStopCore_audioContext (s : VisState) : (micStopCore s).audioContext = s.audioContext := by
  unfold micStopCore
  dsimp only
  split <;> split <;> rfl

@[simp] theorem micStopCore_analyser (s : VisState) : (micStopCore s).analyser = s.analyser := by
  unfold micStopCore
  dsimp only
  split <;> split <;> rfl

@[simp] theorem micStopCore_fileSource (s : VisState) : (micStopCore s).fileSource = s.fileSource := by
  unfold micStopCore
  dsimp only
  split <;> split <;> rfl

@[simp] theorem micStopCore_gainNode (s : VisState) : (micStopCore s).gainNode = s.gainNode := by
  unfold micStopCore
  dsimp only
  split <;> split <;> rfl

@[simp] theorem micStopCore_animationId (s : VisState) : (micStopCore s).animationId = s.animationId := by
  unfold micStopCore
  dsimp only
  split <;> split <;> rfl

@[simp] theorem micStopCore_pendingFrame (s : VisState) : (micStopCore s).pendingFrame = s.pendingFrame := by
  unfold micStopCore
  dsimp only
  split <;> split <;> rfl

@[simp] theorem micStopCore_nextId (s : VisState) : (micStopCore s).nextId = s.nextId := by
  unfold micStopCore
  dsimp only
  split <;> split <;> rfl

@[simp] theorem micStopCore_micRequests (s : VisState) : (micStopCore s).micRequests = s.micRequests := by
  unfold micStopCore
  dsimp only
  split <;> split <;> rfl

@[simp] theorem micStopCore_audioElem (s : VisState) : (micStopCore s).audioElem = s.audioElem := by
  unfold micStopCore
  dsimp only
  split <;> split <;> rfl

@[simp] theorem micStopCore_fileName (s : VisState) : (micStopCore s).fileName = s.fileName := by
  unfold micStopCore
  dsimp only
  split <;> split <;> rfl

@[simp] theorem micStopCore_micPermission (s : VisState) : (micStopCore s).micPermission = s.micPermission := by
  unfold micStopCore
  dsimp only
  split <;> split <;> rfl

@[simp] theorem micStopCore_currentTime (s : VisState) : (micStopCore s).currentTime = s.currentTime := by
  unfold micStopCore
  dsimp only
  split <;> split <;> rfl

@[simp] theorem micStopCore_duration (s : VisState) : (micStopCore s).duration = s.duration := by
  unfold micStopCore
  dsimp only
  split <;> split <;> rfl

@[simp] theorem micStopCore_micStream (s : VisState) : (micStopCore s).micStream = none := by
  unfold micStopCore
  dsimp only
  split <;> split <;> simp_all

@[simp] theorem micStopCore_micSource (s : VisState) : (micStopCore s).micSource = none := by
  unfold micStopCore
  dsimp only
  split <;> split <;> simp_all

@[simp] theorem micStopCore_isMicActive (s : VisState) : (micStopCore s).isMicActive = false := rfl

@[simp] theorem micStopCore_isPlaying (s : VisState) : (micStopCore s).isPlaying = false := rfl

@[simp] theorem micStopCore_edges (s : VisState) :
    (micStopCore s).edges = disconnectOpt s.edges s.micSource := by
  unfold micStopCore disconnectOpt
  dsimp only
  split <;> split <;> simp_all

@[simp] theorem micStopCore_stoppedStreams (s : VisState) :
    (micStopCore s).stoppedStreams =
      s.micStream.elim s.stoppedStreams (fun m => m :: s.stoppedStreams) := by
  unfold micStopCore
  dsimp only
  split <;> split <;> simp_all

@[simp] theorem fileStopCore_audioContext (s : VisState) : (fileStopCore s).audioContext = s.audioContext := by
  unfold fileStopCore
  rfl

@[simp] theorem fileStopCore_analyser (s : VisState) : (fileStopCore s).analyser = s.analyser := by
  unfold fileStopCore
  rfl

@[simp] theorem fileStopCore_fileSource (s : VisState) : (fileStopCore s).fileSource = s.fileSource := by
  unfold fileStopCore
  rfl

@[simp] theorem fileStopCore_micSource (s : VisState) : (fileStopCore s).micSource = s.micSource := by
  unfold fileStopCore
  rfl

@[simp] theorem fileStopCore_micStream (s : VisState) : (fileStopCore s).micStream = s.micStream := by
  unfold fileStopCore
  rfl

@[simp] theorem fileStopCore_gainNode (s : VisState) : (fileStopCore s).gainNode = s.gainNode := by
  unfold fileStopCore
  rfl

@[simp] theorem fileStopCore_animationId (s : VisState) : (fileStopCore s).animationId = s.animationId := by
  unfold fileStopCore
  rfl

@[simp] theorem fileStopCore_pendingFrame (s : VisState) : (fileStopCore s).pendingFrame = s.pendingFrame := by
  unfold fileStopCore
  rfl

@[simp] theorem fileStopCore_nextId (s : VisState) : (fileStopCore s).nextId = s.nextId := by
  unfold fileStopCore
  rfl

@[simp] theorem fileStopCore_stoppedStreams (s : VisState) : (fileStopCore s).stoppedStreams = s.stoppedStreams := by
  unfold fileStopCore
  rfl

@[simp] theorem fileStopCore_micRequests (s : VisState) : (fileStopCore s).micRequests = s.micRequests := by
  unfold fileStopCore
  rfl

@[simp] theorem fileStopCore_micPermission (s : VisState) : (fileStopCore s).micPermission = s.micPermission := by
  unfold fileStopCore
  rfl

@[simp] theorem fileStopCore_isMicActive (s : VisState) : (fileStopCore s).isMicActive = s.isMicActive := by
  unfold fileStopCore
  rfl

@[simp] theorem fileStopCore_audioElem (s : VisState) :
    (fileStopCore s).audioElem = ⟨"", 0, true⟩ := by
  unfold fileStopCore
  rfl

@[simp] theorem fileStopCore_fileName (s : VisState) : (fileStopCore s).fileName = "" := rfl

@[simp] theorem fileStopCore_isPlaying (s : VisState) : (fileStopCore s).isPlaying = false := rfl

@[simp] theorem fileStopCore_currentTime (s : VisState) : (fileStopCore s).currentTime = 0 := rfl

@[simp] theorem fileStopCore_duration (s : VisState) : (fileStopCore s).duration = 0 := rfl

@[simp] theorem fileStopCore_edges (s : VisState) :
    (fileStopCore s).edges = disconnectOpt (disconnectOpt s.edges s.analyser) s.gainNode := by
  unfold fileStopCore
  rfl

/-! ### Extensionality and algebra of the teardown operations -/

theorem visState_ext (s t : VisState)
    (h1 : s.audioContext = t.audioContext) (h2 : s.analyser = t.analyser)
    (h3 : s.fileSource = t.fileSource) (h4 : s.micSource = t.micSource)
    (h5 : s.micStream = t.micStream) (h6 : s.gainNode = t.gainNode)
    (h7 : s.animationId = t.animationId) (h8 : s.pendingFrame = t.pendingFrame)
    (h9 : s.edges = t.edges) (h10 : s.nextId = t.nextId)
    (h11 : s.stoppedStreams = t.stoppedStreams) (h12 : s.micRequests = t.micRequests)
    (h13 : s.audioElem = t.audioElem) (h14 : s.isPlaying = t.isPlaying)
    (h15 : s.fileName = t.fileName) (h16 : s.isMicActive = t.isMicActive)
    (h17 : s.micPermission = t.micPermission) (h18 : s.currentTime = t.currentTime)
    (h19 : s.duration = t.duration) : s = t := by
  cases s
  cases t
  simp_all

theorem cancelViaRef_pending_none (s : VisState)
    (h : ∀ p, s.pendingFrame = some p → s.animationId = some p) :
    (cancelViaRef s).pendingFrame = none := by
  unfold cancelViaRef
  split
  · next x hx =>
    unfold cancelAnimation
    split
    · rfl
    · next hne =>
      rcases hp : s.pendingFrame with _ | p
      · rfl
      · have hax := h p hp
        rw [hx] at hax
        cases hax
        exact absurd hp hne
  · next hnone =>
    rcases hp : s.pendingFrame with _ | p
    · rfl
    · have hax := h p hp
      rw [hnone] at hax
      cases hax

theorem cancelViaRef_idem (s : VisState) :
    cancelViaRef (cancelViaRef s) = cancelViaRef s := by
  rcases h : s.animationId with _ | x
  · have hid : cancelViaRef s = s := by
      unfold cancelViaRef
      rw [h]
    rw [hid, hid]
  · by_cases hp : s.pendingFrame = some x
    · have h1 : cancelViaRef s = { s with pendingFrame := none } := by
        unfold cancelViaRef cancelAnimation
        rw [h]
        simp [hp]
      rw [h1]
      unfold cancelViaRef cancelAnimation
      simp [h]
    · have h1 : cancelViaRef s = s := by
        unfold cancelViaRef cancelAnimation
        rw [h]
        simp [hp]
      rw [h1, h1]

theorem disconnectEdges_idem (l : List (Nat × Endpoint)) (n : Nat) :
    disconnectEdges (disconnectEdges l n) n = disconnectEdges l n := by
  simp [disconnectEdges, List.filter_filter, Bool.and_self]

theorem disconnectEdges_comm (l : List (Nat × Endpoint)) (a b : Nat) :
    disconnectEdges (disconnectEdges l a) b = disconnectEdges (disconnectEdges l b) a := by
  simp only [disconnectEdges, List.filter_filter]
  exact List.filter_congr fun x _ => by rw [Bool.and_comm]

theorem disconnectOpt_idem (l : List (Nat × Endpoint)) (o : Option Nat) :
    disconnectOpt (disconnectOpt l o) o = disconnectOpt l o := by
  cases o
  · rfl
  · exact disconnectEdges_idem l _

theorem disconnectOpt_comm (l : List (Nat × Endpoint)) (a b : Option Nat) :
    disconnectOpt (disconnectOpt l a) b = disconnectOpt (disconnectOpt l b) a := by
  cases a <;> cases b <;> simp [disconnectOpt]
  exact disconnectEdges_comm l _ _

theorem disconnectOpt_pair_idem (l : List (Nat × Endpoint)) (a g : Option Nat) :
    disconnectOpt (disconnectOpt (disconnectOpt (disconnectOpt l a) g) a) g
      = disconnectOpt (disconnectOpt l a) g := by
  rw [disconnectOpt_comm (disconnectOpt l a) g a, disconnectOpt_idem, disconnectOpt_idem]

theorem disconnectOpt_subset (l : List (Nat × Endpoint)) (o : Option Nat) :
    ∀ e ∈ disconnectOpt l o, e ∈ l := by
  cases o with
  | none => exact fun e he => he
  | some n => exact fun e he => (List.mem_filter.mp he).1

theorem mem_disconnectOpt (l : List (Nat × Endpoint)) (o : Option Nat)
    (e : Nat × Endpoint) (he : e ∈ l) (h : ∀ n, o = some n → e.1 ≠ n) :
    e ∈ disconnectOpt l o := by
  cases ho : o with
  | none => exact he
  | some n => exact List.mem_filter.mpr ⟨he, by simpa using h n ho⟩

theorem ne_of_mem_disconnectEdges (l : List (Nat × Endpoint)) (n : Nat)
    (e : Nat × Endpoint) (he : e ∈ disconnectEdges l n) : e.1 ≠ n := by
  simpa using (List.mem_filter.mp he).2

theorem micStopCore_fixed (t : VisState) (h1 : t.micStream = none)
    (h2 : t.micSource = none) (h3 : t.isMicActive = false) (h4 : t.isPlaying = false) :
    micStopCore t = t := by
  unfold micStopCore
  dsimp only
  rw [h1]
  dsimp only
  rw [h2]
  dsimp only
  cases t
  simp_all

theorem stopMicrophone_idem (s : VisState) :
    stopMicrophone (stopMicrophone s) = stopMicrophone s := by
  unfold stopMicrophone
  rw [micStopCore_fixed (cancelViaRef (micStopCore s)) (by simp) (by simp) (by simp) (by simp)]
  exact cancelViaRef_idem _

theorem fileStopCore_fixed (t : VisState) (h1 : t.audioElem = ⟨"", 0, true⟩)
    (h2 : t.fileName = "") (h3 : t.isPlaying = false) (h4 : t.currentTime = 0)
    (h5 : t.duration = 0)
    (h6 : disconnectOpt (disconnectOpt t.edges t.analyser) t.gainNode = t.edges) :
    fileStopCore t = t := by
  unfold fileStopCore
  dsimp only
  rw [h6]
  cases t
  simp_all

theorem stopAudioFile_idem (s : VisState) :
    stopAudioFile (stopAudioFile s) = stopAudioFile s := by
  unfold stopAudioFile
  rw [fileStopCore_fixed (cancelViaRef (fileStopCore s)) (by simp) (by simp) (by simp)
    (by simp) (by simp) (by simp [disconnectOpt_pair_idem])]
  exact cancelViaRef_idem _

/-! ### Claim C4 — `stopFile` teardown -/

/-- C4 counterexample: the claim says `stopFile` disconnects the
file-source binding and discards the analysis node.  After loading a
file (file source id 1, analyser id 2) and stopping it, the file source
still has a live outgoing connection (the edge from node 1 to the old
analyser node 2 survives — the source never calls
`fileSourceRef.current.disconnect()`), and the analyser reference is
still installed rather than discarded. -/
theorem stopFile_cex :
    (stopAudioFile (run [Op.loadFile ⟨"a"⟩])).fileSource = some 1 ∧
    (1, Endpoint.node 2) ∈ (stopAudioFile (run [Op.loadFile ⟨"a"⟩])).edges ∧
    ¬ (∀ e ∈ (stopAudioFile (run [Op.loadFile ⟨"a"⟩])).edges, e.1 ≠ 1) ∧
    (stopAudioFile (run [Op.loadFile ⟨"a"⟩])).analyser = some 2 := by
  refine ⟨by decide, by decide, ?_, by decide⟩
  intro h
  exact h (1, Endpoint.node 2) (by decide) rfl

/-- C4 (amended): `stopFile` pauses playback, resets the position and
detaches the media reference; it retains the file-source binding and
does not disconnect it — only the analysis node's and the monitor-gain
node's outgoing connections are removed, so every file-source edge
survives; and the analyser reference is retained (replaced only on the
next source activation). -/
theorem stopFile_teardown (s : VisState) :
    (stopAudioFile s).audioElem = ⟨"", 0, true⟩ ∧
    (stopAudioFile s).fileSource = s.fileSource ∧
    (stopAudioFile s).analyser = s.analyser ∧
    (stopAudioFile s).gainNode = s.gainNode ∧
    (stopAudioFile s).edges = disconnectOpt (disconnectOpt s.edges s.analyser) s.gainNode ∧
    (stopAudioFile s).fileName = "" ∧
    (stopAudioFile s).isPlaying = false ∧
    (stopAudioFile s).currentTime = 0 ∧
    (stopAudioFile s).duration = 0 ∧
    (∀ e ∈ s.edges, (∀ a, s.analyser = some a → e.1 ≠ a) →
      (∀ g, s.gainNode = some g → e.1 ≠ g) → e ∈ (stopAudioFile s).edges) := by
  refine ⟨by simp [stopAudioFile], by simp [stopAudioFile], by simp [stopAudioFile],
    by simp [stopAudioFile], by simp [stopAudioFile], by simp [stopAudioFile],
    by simp [stopAudioFile], by simp [stopAudioFile], by simp [stopAudioFile], ?_⟩
  intro e he hna hng
  have h1 : e ∈ disconnectOpt s.edges s.analyser := mem_disconnectOpt _ _ _ he hna
  have h2 : e ∈ disconnectOpt (disconnectOpt s.edges s.analyser) s.gainNode :=
    mem_disconnectOpt _ _ _ h1 hng
  simpa [stopAudioFile] using h2

/-- C4 witness: the amended teardown facts evaluated after one concrete
file load (`run [Op.loadFile ⟨"a"⟩]`), including retention of the
file-source edge. -/
theorem stopFile_teardown_witness :
    (stopAudioFile (run [Op.loadFile ⟨"a"⟩])).fileName = "" ∧
    (stopAudioFile (run [Op.loadFile ⟨"a"⟩])).fileSource = (run [Op.loadFile ⟨"a"⟩]).fileSource ∧
    (1, Endpoint.node 2) ∈ (stopAudioFile (run [Op.loadFile ⟨"a"⟩])).edges := by
  obtain ⟨-, h2, -, -, -, h6, -, -, -, h10⟩ := stopFile_teardown (run [Op.loadFile ⟨"a"⟩])
  exact ⟨h6, h2, h10 (1, Endpoint.node 2) (by decide) (by decide) (by decide)⟩

/-! ### Claim C9 — teardown never raises, disconnect is best-effort -/

/-- C9: every disconnect in teardown is best-effort — disconnecting a
node with no live outgoing connection removes nothing (a no-op, not an
error) — and both stop operations are total functions on states and
idempotent: running a teardown a second time, when everything is
already disconnected, leaves the state unchanged, so no teardown error
can propagate to a caller. -/
theorem stop_best_effort :
    (∀ (l : List (Nat × Endpoint)) (n : Nat), (∀ e ∈ l, e.1 ≠ n) → disconnectEdges l n = l) ∧
    (∀ s : VisState, stopMicrophone (stopMicrophone s) = stopMicrophone s) ∧
    (∀ s : VisState, stopAudioFile (stopAudioFile s) = stopAudioFile s) := by
  refine ⟨?_, stopMicrophone_idem, stopAudioFile_idem⟩
  intro l n h
  unfold disconnectEdges
  apply List.filter_eq_self.mpr
  intro e he
  simpa using h e he

/-- C9 witness: a disconnect of an unconnected node (node 2 after it
was already disconnected) is a no-op, and a double teardown of a
concrete microphone session equals a single teardown. -/
theorem stop_best_effort_witness :
    disconnectEdges [(1, Endpoint.node 2)] 2 = [(1, Endpoint.node 2)] ∧
    stopMicrophone (stopMicrophone (run [Op.startMic true])) =
      stopMicrophone (run [Op.startMic true]) := by
  refine ⟨stop_best_effort.1 [(1, Endpoint.node 2)] 2 ?_, stop_best_effort.2.1 _⟩
  intro e he
  simp only [List.mem_singleton] at he
  subst he
  decide

/-! ### Projection lemmas for the microphone-path helpers -/

theorem ensureContext_nextId_ge (s : VisState) : s.nextId ≤ (ensureContext s).nextId := by
  unfold ensureContext
  split
  · exact Nat.le_refl _
  · exact Nat.le_succ _

@[simp] theorem micPrep_fileSource (s : VisState) : (micPrep s).fileSource = s.fileSource := by
  unfold micPrep
  dsimp only
  split <;> simp [stopAudioFile]

@[simp] theorem micPrep_micSource (s : VisState) : (micPrep s).micSource = s.micSource := by
  unfold micPrep
  dsimp only
  split <;> simp [stopAudioFile]

@[simp] theorem micPrep_micStream (s : VisState) : (micPrep s).micStream = s.micStream := by
  unfold micPrep
  dsimp only
  split <;> simp [stopAudioFile]

@[simp] theorem micPrep_isMicActive (s : VisState) : (micPrep s).isMicActive = s.isMicActive := by
  unfold micPrep
  dsimp only
  split <;> simp [stopAudioFile]

@[simp] theorem micPrep_micPermission (s : VisState) : (micPrep s).micPermission = s.micPermission := by
  unfold micPrep
  dsimp only
  split <;> simp [stopAudioFile]

@[simp] theorem micPrep_stoppedStreams (s : VisState) : (micPrep s).stoppedStreams = s.stoppedStreams := by
  unfold micPrep
  dsimp only
  split <;> simp [stopAudioFile]

@[simp] theorem micPrep_micRequests (s : VisState) : (micPrep s).micRequests = s.micRequests := by
  unfold micPrep
  dsimp only
  split <;> simp [stopAudioFile]

@[simp] theorem micPrep_animationId (s : VisState) : (micPrep s).animationId = s.animationId := by
  unfold micPrep
  dsimp only
  split <;> simp [stopAudioFile]

@[simp] theorem micPrep_audioElem (s : VisState) : (micPrep s).audioElem = ⟨"", 0, true⟩ := by
  unfold micPrep
  dsimp only
  split <;> simp [stopAudioFile]

@[simp] theorem micPrep_fileName (s : VisState) : (micPrep s).fileName = "" := by
  unfold micPrep
  dsimp only
  split <;> simp [stopAudioFile]

@[simp] theorem micPrep_isPlaying (s : VisState) : (micPrep s).isPlaying = false := by
  unfold micPrep
  dsimp only
  split <;> simp [stopAudioFile]

@[simp] theorem micPrep_pendingFrame (s : VisState) :
    (micPrep s).pendingFrame = (stopAudioFile s).pendingFrame := by
  unfold micPrep
  dsimp only
  split <;> simp

theorem micPrep_nextId_ge (s : VisState) : s.nextId ≤ (micPrep s).nextId := by
  unfold micPrep
  dsimp only
  have h1 : (stopAudioFile s).nextId = s.nextId := by simp [stopAudioFile]
  have h2 := ensureContext_nextId_ge (stopAudioFile s)
  split <;> simp <;> omega

theorem micPrep_analyser_fresh (s : VisState) :
    ∃ n, (micPrep s).analyser = some n ∧ s.nextId ≤ n := by
  unfold micPrep
  dsimp only
  have h1 : (stopAudioFile s).nextId = s.nextId := by simp [stopAudioFile]
  have h2 := ensureContext_nextId_ge (stopAudioFile s)
  split <;> exact ⟨(ensureContext (stopAudioFile s)).nextId, by simp, by omega⟩

theorem micAcquire_granted_fresh (t : VisState) (h : t.micStream = none) :
    (micAcquire true t).micStream = some t.nextId ∧
    (micAcquire true t).micRequests = t.micRequests + 1 ∧
    (micAcquire true t).stoppedStreams = t.stoppedStreams ∧
    (micAcquire true t).isMicActive = true ∧
    (micAcquire true t).micPermission = MicPerm.granted := by
  unfold micAcquire
  rw [h]
  dsimp only
  refine ⟨by simp, by simp, by simp, by simp, by simp⟩

theorem micAcquire_audioElem (g : Bool) (t : VisState) :
    (micAcquire g t).audioElem = t.audioElem := by
  unfold micAcquire
  dsimp only
  split
  · simp
  · split <;> simp

theorem micAcquire_fileName (g : Bool) (t : VisState) :
    (micAcquire g t).fileName = t.fileName := by
  unfold micAcquire
  dsimp only
  split
  · simp
  · split <;> simp

/-! ### Claim C10 — a denied microphone start is not atomic -/

/-- C10: `startMicrophone` tears the file path down before requesting
the capture stream, so when the permission request is denied the system
ends in `Idle` with the permission recorded as denied: the element is
paused, reset and detached, the file name is cleared, nothing is
playing, no stream is held, and the prior `FileActive` state is not
restored. -/
theorem startMic_denied (s : VisState) (h1 : s.isMicActive = false)
    (h2 : s.micStream = none) :
    (initMicAudioContext false s).micPermission = MicPerm.denied ∧
    modeOf (initMicAudioContext false s) = Mode.idle ∧
    (initMicAudioContext false s).isPlaying = false ∧
    (initMicAudioContext false s).audioElem = ⟨"", 0, true⟩ ∧
    (initMicAudioContext false s).fileName = "" ∧
    (initMicAudioContext false s).micStream = none ∧
    (initMicAudioContext false s).micSource = s.micSource := by
  have hms : (micPrep s).micStream = none := by simp [h2]
  unfold initMicAudioContext micAcquire
  rw [hms]
  dsimp only
  refine ⟨rfl, ?_, by simp, by simp, by simp, by simp, by simp⟩
  unfold modeOf
  simp [h1]

/-- C10 witness: denial evaluated from the concrete `FileActive` state
after loading file "a". -/
theorem startMic_denied_witness :
    (initMicAudioContext false (run [Op.loadFile ⟨"a"⟩])).micPermission = MicPerm.denied ∧
    modeOf (initMicAudioContext false (run [Op.loadFile ⟨"a"⟩])) = Mode.idle ∧
    (initMicAudioContext false (run [Op.loadFile ⟨"a"⟩])).fileName = "" := by
  obtain ⟨g1, g2, -, -, g5, -, -⟩ :=
    startMic_denied (run [Op.loadFile ⟨"a"⟩]) (by decide) (by decide)
  exact ⟨g1, g2, g5⟩

/-! ### Projection lemmas for the file-path helpers -/

@[simp] theorem initAudioContext_micSource (s : VisState) : (initAudioContext s).micSource = s.micSource := by
  unfold initAudioContext
  dsimp only
  split <;> simp

@[simp] theorem initAudioContext_micStream (s : VisState) : (initAudioContext s).micStream = s.micStream := by
  unfold initAudioContext
  dsimp only
  split <;> simp

@[simp] theorem initAudioContext_gainNode (s : VisState) : (initAudioContext s).gainNode = s.gainNode := by
  unfold initAudioContext
  dsimp only
  split <;> simp

@[simp] theorem initAudioContext_animationId (s : VisState) : (initAudioContext s).animationId = s.animationId := by
  unfold initAudioContext
  dsimp only
  split <;> simp

@[simp] theorem initAudioContext_pendingFrame (s : VisState) : (initAudioContext s).pendingFrame = s.pendingFrame := by
  unfold initAudioContext
  dsimp only
  split <;> simp

@[simp] theorem initAudioContext_stoppedStreams (s : VisState) : (initAudioContext s).stoppedStreams = s.stoppedStreams := by
  unfold initAudioContext
  dsimp only
  split <;> simp

@[simp] theorem initAudioContext_micRequests (s : VisState) : (initAudioContext s).micRequests = s.micRequests := by
  unfold initAudioContext
  dsimp only
  split <;> simp

@[simp] theorem initAudioContext_audioElem (s : VisState) : (initAudioContext s).audioElem = s.audioElem := by
  unfold initAudioContext
  dsimp only
  split <;> simp

@[simp] theorem initAudioContext_isPlaying (s : VisState) : (initAudioContext s).isPlaying = s.isPlaying := by
  unfold initAudioContext
  dsimp only
  split <;> simp

@[simp] theorem initAudioContext_fileName (s : VisState) : (initAudioContext s).fileName = s.fileName := by
  unfold initAudioContext
  dsimp only
  split <;> simp

@[simp] theorem initAudioContext_isMicActive (s : VisState) : (initAudioContext s).isMicActive = s.isMicActive := by
  unfold initAudioContext
  dsimp only
  split <;> simp

@[simp] theorem initAudioContext_micPermission (s : VisState) : (initAudioContext s).micPermission = s.micPermission := by
  unfold initAudioContext
  dsimp only
  split <;> simp

@[simp] theorem initAudioContext_currentTime (s : VisState) : (initAudioContext s).currentTime = s.currentTime := by
  unfold initAudioContext
  dsimp only
  split <;> simp

@[simp] theorem initAudioContext_duration (s : VisState) : (initAudioContext s).duration = s.duration := by
  unfold initAudioContext
  dsimp only
  split <;> simp

theorem initAudioContext_fileSource_some (s : VisState) (n : Nat) (h : s.fileSource = some n) :
    (initAudioContext s).fileSource = some n := by
  unfold initAudioContext
  dsimp only
  have h2 : (ensureContext s).fileSource = some n := by simpa using h
  split
  · next heq => simp_all
  · next heq => simp_all

theorem initAudioContext_analyser_fresh (s : VisState) :
    ∃ n, (initAudioContext s).analyser = some n ∧ s.nextId ≤ n := by
  unfold initAudioContext
  dsimp only
  have h2 := ensureContext_nextId_ge s
  split
  · exact ⟨(ensureContext s).nextId, by simp, by omega⟩
  · exact ⟨(ensureContext s).nextId + 1, by simp, by omega⟩

theorem initAudioContext_nextId_ge (s : VisState) : s.nextId ≤ (initAudioContext s).nextId := by
  unfold initAudioContext
  dsimp only
  have h2 := ensureContext_nextId_ge s
  split <;> simp <;> omega

/-! ### Claim C8 — stopping cancels the pending frame synchronously -/

/-- The scheduling discipline of the component: any pending browser
frame callback is the one whose id is held in `animationIdRef` (both
are written together by `draw`). -/
def PendingSub (s : VisState) : Prop :=
  ∀ p, s.pendingFrame = some p → s.animationId = some p

theorem pendingSub_of_none (s : VisState) (h : s.pendingFrame = none) : PendingSub s := by
  intro p hp
  rw [h] at hp
  cases hp

theorem stopMicrophone_pending_none (s : VisState) (h : PendingSub s) :
    (stopMicrophone s).pendingFrame = none := by
  unfold stopMicrophone
  apply cancelViaRef_pending_none
  intro p hp
  simp only [micStopCore_pendingFrame] at hp
  simpa using h p hp

theorem stopAudioFile_pending_none (s : VisState) (h : PendingSub s) :
    (stopAudioFile s).pendingFrame = none := by
  unfold stopAudioFile
  apply cancelViaRef_pending_none
  intro p hp
  simp only [fileStopCore_pendingFrame] at hp
  simpa using h p hp

theorem frameFire_of_no_pending (s : VisState) (h : s.pendingFrame = none) :
    frameFire s = s := by
  unfold frameFire
  rw [h]

theorem handleFileUpload_pendingFrame (f : AudioFile) (s : VisState) :
    (handleFileUpload f s).pendingFrame =
      (if s.isMicActive then stopMicrophone s else s).pendingFrame := by
  unfold handleFileUpload fileLoadBase
  split <;> simp

theorem handleFileUpload_animationId (f : AudioFile) (s : VisState) :
    (handleFileUpload f s).animationId =
      (if s.isMicActive then stopMicrophone s else s).animationId := by
  unfold handleFileUpload fileLoadBase
  split <;> simp

theorem draw_pendingSub (t : VisState) (h : PendingSub t) : PendingSub (draw t) := by
  unfold draw
  split
  · exact h
  · intro p hp
    simp only at hp ⊢
    exact hp

theorem micAcquire_pendingSub (g : Bool) (t : VisState) (h : PendingSub t) :
    PendingSub (micAcquire g t) := by
  unfold micAcquire
  dsimp only
  split
  · apply draw_pendingSub
    intro p hp
    simp only at hp ⊢
    exact h p hp
  · split
    · apply draw_pendingSub
      intro p hp
      simp only at hp ⊢
      exact h p hp
    · intro p hp
      simp only at hp ⊢
      exact h p hp

theorem pendingSub_step (op : Op) (s : VisState) (h : PendingSub s) :
    PendingSub (step op s) := by
  cases op with
  | loadFile f =>
    show PendingSub (handleFileUpload f s)
    intro p hp
    rw [handleFileUpload_pendingFrame] at hp
    rw [handleFileUpload_animationId]
    by_cases hm : s.isMicActive
    · rw [if_pos hm, stopMicrophone_pending_none s h] at hp
      cases hp
    · rw [if_neg hm] at hp ⊢
      exact h p hp
  | startMic g =>
    show PendingSub (initMicAudioContext g s)
    unfold initMicAudioContext
    apply micAcquire_pendingSub
    apply pendingSub_of_none
    rw [micPrep_pendingFrame]
    exact stopAudioFile_pending_none s h
  | stopMic =>
    show PendingSub (stopMicrophone s)
    intro p hp
    rw [stopMicrophone_pending_none s h] at hp
    cases hp
  | stopFile =>
    show PendingSub (stopAudioFile s)
    intro p hp
    rw [stopAudioFile_pending_none s h] at hp
    cases hp
  | frame =>
    show PendingSub (frameFire s)
    unfold frameFire
    split
    · exact h
    · exact draw_pendingSub _ (pendingSub_of_none _ (by simp))

theorem pendingSub_run (ops : List Op) : PendingSub (run ops) := by
  suffices h : ∀ s, PendingSub s → PendingSub (ops.foldl (fun s o => step o s) s) by
    exact h init (pendingSub_of_none init rfl)
  induction ops with
  | nil => exact fun s hs => hs
  | cons o rest ih => exact fun s hs => ih _ (pendingSub_step o s hs)

/-- C8: in every state whose pending frame callback is the one recorded
in `animationIdRef` — an invariant of all reachable states, stated as
the second conjunct — `stopMicrophone` and `stopFile` cancel the pending
callback synchronously (no callback is pending when they return), and
the browser firing a frame after such a stop is a no-op: no further
frame callback runs. -/
theorem stop_cancels_frame :
    (∀ s : VisState, PendingSub s →
      (stopMicrophone s).pendingFrame = none ∧
      (stopAudioFile s).pendingFrame = none ∧
      frameFire (stopMicrophone s) = stopMicrophone s ∧
      frameFire (stopAudioFile s) = stopAudioFile s) ∧
    (∀ ops : List Op, PendingSub (run ops)) := by
  constructor
  · intro s h
    have h1 := stopMicrophone_pending_none s h
    have h2 := stopAudioFile_pending_none s h
    exact ⟨h1, h2, frameFire_of_no_pending _ h1, frameFire_of_no_pending _ h2⟩
  · exact pendingSub_run

/-- C8 witness: after a real microphone session (which has a frame
callback pending), stopping cancels it and a subsequent frame fire
changes nothing. -/
theorem stop_cancels_frame_witness :
    (stopMicrophone (run [Op.startMic true])).pendingFrame = none ∧
    frameFire (stopMicrophone (run [Op.startMic true])) =
      stopMicrophone (run [Op.startMic true]) := by
  obtain ⟨h1, -, h3, -⟩ :=
    stop_cancels_frame.1 (run [Op.startMic true]) (stop_cancels_frame.2 [Op.startMic true])
  exact ⟨h1, h3⟩

/-! ### Projection lemmas for the file-load prefix -/

@[simp] theorem fileLoadBase_audioContext (f : AudioFile) (s : VisState) :
    (fileLoadBase f s).audioContext = s.audioContext := by
  unfold fileLoadBase
  split <;> simp [stopMicrophone]

@[simp] theorem fileLoadBase_analyser (f : AudioFile) (s : VisState) :
    (fileLoadBase f s).analyser = s.analyser := by
  unfold fileLoadBase
  split <;> simp [stopMicrophone]

@[simp] theorem fileLoadBase_fileSource (f : AudioFile) (s : VisState) :
    (fileLoadBase f s).fileSource = s.fileSource := by
  unfold fileLoadBase
  split <;> simp [stopMicrophone]

@[simp] theorem fileLoadBase_gainNode (f : AudioFile) (s : VisState) :
    (fileLoadBase f s).gainNode = s.gainNode := by
  unfold fileLoadBase
  split <;> simp [stopMicrophone]

@[simp] theorem fileLoadBase_nextId (f : AudioFile) (s : VisState) :
    (fileLoadBase f s).nextId = s.nextId := by
  unfold fileLoadBase
  split <;> simp [stopMicrophone]

@[simp] theorem fileLoadBase_micPermission (f : AudioFile) (s : VisState) :
    (fileLoadBase f s).micPermission = s.micPermission := by
  unfold fileLoadBase
  split <;> simp [stopMicrophone]

@[simp] theorem fileLoadBase_currentTime (f : AudioFile) (s : VisState) :
    (fileLoadBase f s).currentTime = s.currentTime := by
  unfold fileLoadBase
  split <;> simp [stopMicrophone]

@[simp] theorem fileLoadBase_duration (f : AudioFile) (s : VisState) :
    (fileLoadBase f s).duration = s.duration := by
  unfold fileLoadBase
  split <;> simp [stopMicrophone]

@[simp] theorem fileLoadBase_animationId (f : AudioFile) (s : VisState) :
    (fileLoadBase f s).animationId = s.animationId := by
  unfold fileLoadBase
  split <;> simp [stopMicrophone]

@[simp] theorem fileLoadBase_micRequests (f : AudioFile) (s : VisState) :
    (fileLoadBase f s).micRequests = s.micRequests := by
  unfold fileLoadBase
  split <;> simp [stopMicrophone]

@[simp] theorem fileLoadBase_fileName (f : AudioFile) (s : VisState) :
    (fileLoadBase f s).fileName = f.name := by
  unfold fileLoadBase
  split <;> rfl

@[simp] theorem fileLoadBase_audioElem (f : AudioFile) (s : VisState) :
    (fileLoadBase f s).audioElem = ⟨objectURL f, 0, true⟩ := by
  unfold fileLoadBase
  split <;> rfl

theorem fileLoadBase_micStream (f : AudioFile) (s : VisState) :
    (fileLoadBase f s).micStream =
      (if s.isMicActive then stopMicrophone s else s).micStream := by
  unfold fileLoadBase
  split <;> simp

theorem fileLoadBase_micSource (f : AudioFile) (s : VisState) :
    (fileLoadBase f s).micSource =
      (if s.isMicActive then stopMicrophone s else s).micSource := by
  unfold fileLoadBase
  split <;> simp

theorem fileLoadBase_edges (f : AudioFile) (s : VisState) :
    (fileLoadBase f s).edges =
      (if s.isMicActive then stopMicrophone s else s).edges := by
  unfold fileLoadBase
  split <;> simp

theorem fileLoadBase_stoppedStreams (f : AudioFile) (s : VisState) :
    (fileLoadBase f s).stoppedStreams =
      (if s.isMicActive then stopMicrophone s else s).stoppedStreams := by
  unfold fileLoadBase
  split <;> simp

theorem fileLoadBase_isMicActive (f : AudioFile) (s : VisState) :
    (fileLoadBase f s).isMicActive = (if s.isMicActive then false else s.isMicActive) := by
  unfold fileLoadBase
  split <;> simp [stopMicrophone]

/-! ### Allocator invariant: stored ids are below the allocation counter -/

/-- An optionally held id is below a bound. -/
def IdBound (o : Option Nat) (b : Nat) : Prop :=
  ∀ n, o = some n → n < b

/-- The allocator invariant needed for freshness arguments: the held
analyser id and capture-stream id are below `nextId`. -/
def SafeInv (s : VisState) : Prop :=
  IdBound s.analyser s.nextId ∧ IdBound s.micStream s.nextId

theorem idBound_none (b : Nat) : IdBound none b := fun n hn => by cases hn

theorem draw_nextId_ge (s : VisState) : s.nextId ≤ (draw s).nextId := by
  unfold draw
  split
  · exact Nat.le_refl _
  · exact Nat.le_succ _

@[simp] theorem micAcquire_analyser (g : Bool) (t : VisState) :
    (micAcquire g t).analyser = t.analyser := by
  unfold micAcquire
  dsimp only
  split
  · simp
  · split <;> simp

theorem micAcquire_nextId_ge (g : Bool) (t : VisState) :
    t.nextId ≤ (micAcquire g t).nextId := by
  unfold micAcquire
  dsimp only
  split
  · refine le_trans ?_ (draw_nextId_ge _)
    exact Nat.le_refl _
  · split
    · refine le_trans ?_ (draw_nextId_ge _)
      show t.nextId ≤ t.nextId + 1 + 1
      omega
    · exact Nat.le_refl _

theorem micPrep_analyser_lt (s : VisState) :
    ∃ n, (micPrep s).analyser = some n ∧ n < (micPrep s).nextId := by
  unfold micPrep
  dsimp only
  split
  · refine ⟨(ensureContext (stopAudioFile s)).nextId, by simp, ?_⟩
    show (ensureContext (stopAudioFile s)).nextId < (ensureContext (stopAudioFile s)).nextId + 1
    omega
  · refine ⟨(ensureContext (stopAudioFile s)).nextId, by simp, ?_⟩
    show (ensureContext (stopAudioFile s)).nextId <
      (ensureContext (stopAudioFile s)).nextId + 1 + 1
    omega

theorem initAudioContext_analyser_lt (s : VisState) :
    ∃ n, (initAudioContext s).analyser = some n ∧ n < (initAudioContext s).nextId := by
  unfold initAudioContext
  dsimp only
  split
  · refine ⟨(ensureContext s).nextId, by simp, ?_⟩
    show (ensureContext s).nextId < (ensureContext s).nextId + 1
    omega
  · refine ⟨(ensureContext s).nextId + 1, by simp, ?_⟩
    show (ensureContext s).nextId + 1 < (ensureContext s).nextId + 1 + 1
    omega

@[simp] theorem handleFileUpload_nextId (f : AudioFile) (s : VisState) :
    (handleFileUpload f s).nextId = (initAudioContext (fileLoadBase f s)).nextId := rfl

@[simp] theorem handleFileUpload_analyser (f : AudioFile) (s : VisState) :
    (handleFileUpload f s).analyser = (initAudioContext (fileLoadBase f s)).analyser := rfl

theorem handleFileUpload_nextId_ge (f : AudioFile) (s : VisState) :
    s.nextId ≤ (handleFileUpload f s).nextId := by
  rw [handleFileUpload_nextId]
  refine le_of_eq_of_le ?_ (initAudioContext_nextId_ge (fileLoadBase f s))
  rw [fileLoadBase_nextId]

theorem handleFileUpload_analyser_lt (f : AudioFile) (s : VisState) :
    ∃ n, (handleFileUpload f s).analyser = some n ∧ n < (handleFileUpload f s).nextId := by
  rw [handleFileUpload_nextId, handleFileUpload_analyser]
  exact initAudioContext_analyser_lt (fileLoadBase f s)

theorem handleFileUpload_micStream (f : AudioFile) (s : VisState) :
    (handleFileUpload f s).micStream =
      (if s.isMicActive then stopMicrophone s else s).micStream := by
  unfold handleFileUpload
  dsimp only
  rw [show (initAudioContext (fileLoadBase f s)).micStream = (fileLoadBase f s).micStream
    from initAudioContext_micStream _]
  exact fileLoadBase_micStream f s

theorem micAcquire_micStream_bound (g : Bool) (t : VisState)
    (h : IdBound t.micStream t.nextId) :
    IdBound (micAcquire g t).micStream (micAcquire g t).nextId := by
  unfold micAcquire
  dsimp only
  split
  · intro n hn
    rw [draw_micStream] at hn
    refine lt_of_lt_of_le ?_ (draw_nextId_ge _)
    show n < t.nextId
    exact h n hn
  · split
    · intro n hn
      rw [draw_micStream] at hn
      have hval : t.nextId = n := by simpa using hn
      subst hval
      refine lt_of_lt_of_le ?_ (draw_nextId_ge _)
      show t.nextId < t.nextId + 1 + 1
      omega
    · intro n hn
      exact h n hn

theorem safeInv_step (op : Op) (s : VisState) (h : SafeInv s) : SafeInv (step op s) := by
  obtain ⟨ha, hm⟩ := h
  cases op with
  | loadFile f =>
    show SafeInv (handleFileUpload f s)
    constructor
    · obtain ⟨n, hn, hlt⟩ := handleFileUpload_analyser_lt f s
      intro k hk
      rw [hn] at hk
      cases hk
      exact hlt
    · intro k hk
      rw [handleFileUpload_micStream] at hk
      by_cases hma : s.isMicActive
      · rw [if_pos hma] at hk
        rw [show (stopMicrophone s).micStream = none by simp [stopMicrophone]] at hk
        cases hk
      · rw [if_neg hma] at hk
        exact lt_of_lt_of_le (hm k hk) (handleFileUpload_nextId_ge f s)
  | startMic g =>
    show SafeInv (initMicAudioContext g s)
    unfold initMicAudioContext
    constructor
    · obtain ⟨n, hn, hlt⟩ := micPrep_analyser_lt s
      intro k hk
      rw [micAcquire_analyser, hn] at hk
      cases hk
      exact lt_of_lt_of_le hlt (micAcquire_nextId_ge g (micPrep s))
    · apply micAcquire_micStream_bound
      intro k hk
      rw [micPrep_micStream] at hk
      exact lt_of_lt_of_le (hm k hk) (micPrep_nextId_ge s)
  | stopMic =>
    show SafeInv (stopMicrophone s)
    have h2 : (stopMicrophone s).nextId = s.nextId := by simp [stopMicrophone]
    constructor
    · intro k hk
      rw [show (stopMicrophone s).analyser = s.analyser by simp [stopMicrophone]] at hk
      have h1 := ha k hk
      omega
    · intro k hk
      rw [show (stopMicrophone s).micStream = none by simp [stopMicrophone]] at hk
      cases hk
  | stopFile =>
    show SafeInv (stopAudioFile s)
    have h2 : (stopAudioFile s).nextId = s.nextId := by simp [stopAudioFile]
    constructor
    · intro k hk
      rw [show (stopAudioFile s).analyser = s.analyser by simp [stopAudioFile]] at hk
      have h1 := ha k hk
      omega
    · intro k hk
      rw [show (stopAudioFile s).micStream = s.micStream by simp [stopAudioFile]] at hk
      have h1 := hm k hk
      omega
  | frame =>
    show SafeInv (frameFire s)
    unfold frameFire
    split
    · exact ⟨ha, hm⟩
    · constructor
      · intro k hk
        rw [draw_analyser] at hk
        refine lt_of_lt_of_le ?_ (draw_nextId_ge _)
        show k < s.nextId
        exact ha k hk
      · intro k hk
        rw [draw_micStream] at hk
        refine lt_of_lt_of_le ?_ (draw_nextId_ge _)
        show k < s.nextId
        exact hm k hk

theorem safeInv_run (ops : List Op) : SafeInv (run ops) := by
  suffices h : ∀ s, SafeInv s → SafeInv (ops.foldl (fun s o => step o s) s) by
    exact h init ⟨idBound_none _, idBound_none _⟩
  induction ops with
  | nil => exact fun s hs => hs
  | cons o rest ih => exact fun s hs => ih _ (safeInv_step o s hs)

@[simp] theorem micAcquire_fileSource (g : Bool) (t : VisState) :
    (micAcquire g t).fileSource = t.fileSource := by
  unfold micAcquire
  dsimp only
  split
  · simp
  · split <;> simp

@[simp] theorem micAcquire_audioContext (g : Bool) (t : VisState) :
    (micAcquire g t).audioContext = t.audioContext := by
  unfold micAcquire
  dsimp only
  split
  · simp
  · split <;> simp

theorem ensureContext_audioContext_some (s : VisState) (c : Nat)
    (h : s.audioContext = some c) : (ensureContext s).audioContext = some c := by
  unfold ensureContext
  rw [h]
  exact h

theorem initAudioContext_audioContext (s : VisState) :
    (initAudioContext s).audioContext = (ensureContext s).audioContext := by
  unfold initAudioContext
  dsimp only
  split <;> simp

theorem micPrep_audioContext (s : VisState) :
    (micPrep s).audioContext = (ensureContext (stopAudioFile s)).audioContext := by
  unfold micPrep
  dsimp only
  split <;> simp

theorem frameFire_fileSource (s : VisState) : (frameFire s).fileSource = s.fileSource := by
  unfold frameFire
  split
  · rfl
  · simp

theorem frameFire_audioContext (s : VisState) :
    (frameFire s).audioContext = s.audioContext := by
  unfold frameFire
  split
  · rfl
  · simp

@[simp] theorem handleFileUpload_fileSource (f : AudioFile) (s : VisState) :
    (handleFileUpload f s).fileSource = (initAudioContext (fileLoadBase f s)).fileSource := rfl

@[simp] theorem handleFileUpload_audioContext (f : AudioFile) (s : VisState) :
    (handleFileUpload f s).audioContext =
      (initAudioContext (fileLoadBase f s)).audioContext := rfl

@[simp] theorem handleFileUpload_fileName (f : AudioFile) (s : VisState) :
    (handleFileUpload f s).fileName = f.name := by
  unfold handleFileUpload
  dsimp only
  rw [initAudioContext_fileName, fileLoadBase_fileName]

@[simp] theorem handleFileUpload_isMicActive (f : AudioFile) (s : VisState) :
    (handleFileUpload f s).isMicActive = false := by
  unfold handleFileUpload
  dsimp only
  rw [initAudioContext_isMicActive, fileLoadBase_isMicActive]
  by_cases hm : s.isMicActive <;> simp [hm]

@[simp] theorem handleFileUpload_audioElem (f : AudioFile) (s : VisState) :
    (handleFileUpload f s).audioElem = ⟨objectURL f, 0, false⟩ := by
  unfold handleFileUpload
  dsimp only
  rw [initAudioContext_audioElem, fileLoadBase_audioElem]

theorem step_fileSource_some (op : Op) (s : VisState) (n : Nat)
    (h : s.fileSource = some n) : (step op s).fileSource = some n := by
  cases op with
  | loadFile f =>
    show (handleFileUpload f s).fileSource = some n
    rw [handleFileUpload_fileSource]
    exact initAudioContext_fileSource_some _ n (by simpa using h)
  | startMic g =>
    show (initMicAudioContext g s).fileSource = some n
    unfold initMicAudioContext
    rw [micAcquire_fileSource, micPrep_fileSource]
    exact h
  | stopMic =>
    show (stopMicrophone s).fileSource = some n
    simpa [stopMicrophone] using h
  | stopFile =>
    show (stopAudioFile s).fileSource = some n
    simpa [stopAudioFile] using h
  | frame =>
    show (frameFire s).fileSource = some n
    rw [frameFire_fileSource]
    exact h

theorem step_audioContext_some (op : Op) (s : VisState) (c : Nat)
    (h : s.audioContext = some c) : (step op s).audioContext = some c := by
  cases op with
  | loadFile f =>
    show (handleFileUpload f s).audioContext = some c
    rw [handleFileUpload_audioContext, initAudioContext_audioContext]
    exact ensureContext_audioContext_some _ c (by simpa using h)
  | startMic g =>
    show (initMicAudioContext g s).audioContext = some c
    unfold initMicAudioContext
    rw [micAcquire_audioContext, micPrep_audioContext]
    exact ensureContext_audioContext_some _ c (by simpa [stopAudioFile] using h)
  | stopMic =>
    show (stopMicrophone s).audioContext = some c
    simpa [stopMicrophone] using h
  | stopFile =>
    show (stopAudioFile s).audioContext = some c
    simpa [stopAudioFile] using h
  | frame =>
    show (frameFire s).audioContext = some c
    rw [frameFire_audioContext]
    exact h

/-! ### Claim C2 — the file-source binding is created at most once -/

/-- C2: the file-source binding and the engine handle, once created, are
preserved unchanged (same object identity) by every operation; and a
`loadFile` from a reachable state that already holds a file source
reuses exactly that binding, while installing an analysis node that is a
new instance distinct from the installed one, ending in `FileActive`
with the new file's name and content URL. -/
theorem fileSource_created_once :
    (∀ (op : Op) (s : VisState) (n : Nat), s.fileSource = some n →
      (step op s).fileSource = some n) ∧
    (∀ (op : Op) (s : VisState) (c : Nat), s.audioContext = some c →
      (step op s).audioContext = some c) ∧
    (∀ (s : VisState) (f : AudioFile) (fs a : Nat), Reaches s →
      s.fileSource = some fs → s.analyser = some a → f.name ≠ "" →
      (handleFileUpload f s).fileSource = some fs ∧
      (∃ n, (handleFileUpload f s).analyser = some n ∧ n ≠ a) ∧
      (handleFileUpload f s).fileName = f.name ∧
      (handleFileUpload f s).audioElem.src = objectURL f ∧
      (handleFileUpload f s).audioElem.paused = false ∧
      modeOf (handleFileUpload f s) = Mode.fileActive) := by
  refine ⟨step_fileSource_some, step_audioContext_some, ?_⟩
  rintro s f fs a ⟨ops, rfl⟩ hfs ha hname
  set s := run ops with hsdef
  have hsafe := safeInv_run ops
  have halt : a < s.nextId := hsafe.1 a ha
  constructor
  · rw [handleFileUpload_fileSource]
    exact initAudioContext_fileSource_some _ fs (by simpa using hfs)
  constructor
  · obtain ⟨n, hn, hge⟩ := initAudioContext_analyser_fresh (fileLoadBase f s)
    rw [fileLoadBase_nextId] at hge
    refine ⟨n, ?_, ?_⟩
    · rw [handleFileUpload_analyser]
      exact hn
    · omega
  refine ⟨handleFileUpload_fileName f s, ?_, ?_, ?_⟩
  · rw [handleFileUpload_audioElem]
  · rw [handleFileUpload_audioElem]
  · unfold modeOf
    rw [handleFileUpload_isMicActive, handleFileUpload_fileName]
    simp [hname]

/-- C2 witness: loading file "b" over the session that already loaded
file "a" keeps file-source id 1, replaces analyser id 2 with a distinct
one, and lands in `FileActive` for "b". -/
theorem fileSource_created_once_witness :
    (handleFileUpload ⟨"b"⟩ (run [Op.loadFile ⟨"a"⟩])).fileSource = some 1 ∧
    (∃ n, (handleFileUpload ⟨"b"⟩ (run [Op.loadFile ⟨"a"⟩])).analyser = some n ∧ n ≠ 2) ∧
    (handleFileUpload ⟨"b"⟩ (run [Op.loadFile ⟨"a"⟩])).fileName = "b" ∧
    modeOf (handleFileUpload ⟨"b"⟩ (run [Op.loadFile ⟨"a"⟩])) = Mode.fileActive := by
  obtain ⟨g1, g2, g3, -, -, g6⟩ :=
    fileSource_created_once.2.2 (run [Op.loadFile ⟨"a"⟩]) ⟨"b"⟩ 1 2
      ⟨[Op.loadFile ⟨"a"⟩], rfl⟩ (by decide) (by decide) (by decide)
  exact ⟨g1, g2, g3, g6⟩

/-! ### Claim C3 — mic start tears the file down first and re-requests streams -/

theorem stopMicrophone_nextId (s : VisState) : (stopMicrophone s).nextId = s.nextId := by
  simp [stopMicrophone]

/-- C3: `startMicrophone` is the file teardown and graph preparation
(`micPrep`) followed by stream acquisition (`micAcquire`): at the moment
the capture stream is requested the element is paused, reset and
detached and nothing is playing, and acquisition does not touch the
element.  Moreover `stopMicrophone` immediately followed by a granted
`startMicrophone`, from any reachable state holding stream `m`,
re-invokes `getUserMedia` (the request counter increments) and yields a
stream object distinct from `m`, while `m`'s tracks are stopped. -/
theorem mic_restart_fresh :
    (∀ (g : Bool) (t : VisState), initMicAudioContext g t = micAcquire g (micPrep t)) ∧
    (∀ t : VisState, (micPrep t).audioElem = ⟨"", 0, true⟩ ∧
      (micPrep t).fileName = "" ∧ (micPrep t).isPlaying = false) ∧
    (∀ (g : Bool) (t : VisState), (micAcquire g t).audioElem = t.audioElem ∧
      (micAcquire g t).fileName = t.fileName) ∧
    (∀ (ops : List Op) (m : Nat), (run ops).micStream = some m →
      ∃ m', (initMicAudioContext true (stopMicrophone (run ops))).micStream = some m' ∧
        m' ≠ m ∧
        m ∈ (initMicAudioContext true (stopMicrophone (run ops))).stoppedStreams ∧
        (initMicAudioContext true (stopMicrophone (run ops))).micRequests =
          (run ops).micRequests + 1) := by
  refine ⟨fun g t => rfl, fun t => ⟨by simp, by simp, by simp⟩,
    fun g t => ⟨micAcquire_audioElem g t, micAcquire_fileName g t⟩, ?_⟩
  intro ops m hm
  have hsafe := safeInv_run ops
  have hmlt : m < (run ops).nextId := hsafe.2 m hm
  have h1 : (stopMicrophone (run ops)).micStream = none := by simp [stopMicrophone]
  have h2 : (micPrep (stopMicrophone (run ops))).micStream = none := by simp [h1]
  obtain ⟨hms, hreq, hstop, -, -⟩ := micAcquire_granted_fresh (micPrep (stopMicrophone (run ops))) h2
  have hstopped : (stopMicrophone (run ops)).stoppedStreams =
      m :: (run ops).stoppedStreams := by
    simp [stopMicrophone, hm]
  refine ⟨(micPrep (stopMicrophone (run ops))).nextId, ?_, ?_, ?_, ?_⟩
  · show (micAcquire true (micPrep (stopMicrophone (run ops)))).micStream = _
    exact hms
  · have hge := micPrep_nextId_ge (stopMicrophone (run ops))
    have hnid := stopMicrophone_nextId (run ops)
    omega
  · show m ∈ (micAcquire true (micPrep (stopMicrophone (run ops)))).stoppedStreams
    rw [hstop, micPrep_stoppedStreams, hstopped]
    exact List.mem_cons_self m _
  · show (micAcquire true (micPrep (stopMicrophone (run ops)))).micRequests = _
    rw [hreq, micPrep_micRequests]
    rw [show (stopMicrophone (run ops)).micRequests = (run ops).micRequests by
      simp [stopMicrophone]]

/-- C3 witness: stopping and restarting a concrete microphone session
re-requests a distinct stream and stops the old stream's tracks. -/
theorem mic_restart_fresh_witness :
    ∃ m', (initMicAudioContext true (stopMicrophone (run [Op.startMic true]))).micStream
        = some m' ∧
      m' ≠ 3 ∧
      3 ∈ (initMicAudioContext true (stopMicrophone (run [Op.startMic true]))).stoppedStreams ∧
      (initMicAudioContext true (stopMicrophone (run [Op.startMic true]))).micRequests =
        (run [Op.startMic true]).micRequests + 1 :=
  mic_restart_fresh.2.2.2 [Op.startMic true] 3 (by decide)

/-! ### Claim C1 — mutual exclusion of the two source paths -/

/-- No connection in the list feeds the engine output. -/
def destFree (l : List (Nat × Endpoint)) : Prop :=
  ∀ e ∈ l, e.2 ≠ Endpoint.destination

/-- The graph-manager invariant: (1) a held mic source implies mic mode;
(2) every engine-output edge originates at the installed analyser;
(3) a live engine-output edge implies file mode (no mic source, a file
name, mic flag off). -/
def MutexInv (s : VisState) : Prop :=
  (∀ n, s.micSource = some n → s.isMicActive = true) ∧
  (∀ e ∈ s.edges, e.2 = Endpoint.destination → s.analyser = some e.1) ∧
  ((∃ e ∈ s.edges, e.2 = Endpoint.destination) →
    s.micSource = none ∧ s.fileName ≠ "" ∧ s.isMicActive = false)

theorem destFree_disconnect_analyser (l : List (Nat × Endpoint)) (a : Option Nat)
    (h : ∀ e ∈ l, e.2 = Endpoint.destination → a = some e.1) :
    destFree (disconnectOpt l a) := by
  intro e he hdest
  have hsub := disconnectOpt_subset l a e he
  have ha := h e hsub hdest
  rw [ha] at he
  exact ne_of_mem_disconnectEdges l e.1 e he rfl

@[simp] theorem stopMicrophone_edges (s : VisState) :
    (stopMicrophone s).edges = disconnectOpt s.edges s.micSource := by
  simp [stopMicrophone]

@[simp] theorem stopAudioFile_edges (s : VisState) :
    (stopAudioFile s).edges = disconnectOpt (disconnectOpt s.edges s.analyser) s.gainNode := by
  simp [stopAudioFile]

theorem micPrep_edges (s : VisState) :
    (micPrep s).edges =
      disconnectOpt (disconnectOpt (disconnectOpt s.edges s.analyser) s.gainNode)
        s.analyser := by
  unfold micPrep
  dsimp only
  split <;> simp [stopAudioFile]

theorem micAcquire_edges_mem (g : Bool) (t : VisState) (e : Nat × Endpoint)
    (he : e ∈ (micAcquire g t).edges) : e ∈ t.edges ∨ e.2 ≠ Endpoint.destination := by
  revert he
  unfold micAcquire
  dsimp only
  split
  · intro he
    rw [draw_edges] at he
    exact Or.inl he
  · split
    · intro he
      rw [draw_edges] at he
      rcases List.mem_cons.mp he with h | h
      · right
        rw [h]
        intro hc
        cases hc
      · exact Or.inl h
    · intro he
      exact Or.inl he

theorem micAcquire_mode_cases (g : Bool) (t : VisState) :
    (micAcquire g t).isMicActive = true ∨
      ((micAcquire g t).isMicActive = t.isMicActive ∧
       (micAcquire g t).micSource = t.micSource ∧
       (micAcquire g t).edges = t.edges) := by
  unfold micAcquire
  dsimp only
  split
  · left
    simp
  · split
    · left
      simp
    · right
      exact ⟨rfl, rfl, rfl⟩

theorem initAudioContext_edges_shape (s : VisState) :
    ∃ an src, (initAudioContext s).analyser = some an ∧
      (initAudioContext s).edges =
        (an, Endpoint.destination) :: (src, Endpoint.node an) ::
          disconnectOpt (disconnectOpt s.edges s.gainNode) s.analyser := by
  unfold initAudioContext
  dsimp only
  split
  · next n heq =>
    exact ⟨(ensureContext s).nextId, n, by simp, by simp⟩
  · exact ⟨(ensureContext s).nextId + 1, (ensureContext s).nextId, by simp, by simp⟩

@[simp] theorem handleFileUpload_edges (f : AudioFile) (s : VisState) :
    (handleFileUpload f s).edges = (initAudioContext (fileLoadBase f s)).edges := rfl

theorem handleFileUpload_edges_shape (f : AudioFile) (s : VisState) :
    ∃ an src, (handleFileUpload f s).analyser = some an ∧
      (handleFileUpload f s).edges =
        (an, Endpoint.destination) :: (src, Endpoint.node an) ::
          disconnectOpt (disconnectOpt (fileLoadBase f s).edges s.gainNode) s.analyser := by
  obtain ⟨an, src, h1, h2⟩ := initAudioContext_edges_shape (fileLoadBase f s)
  refine ⟨an, src, ?_, ?_⟩
  · rw [handleFileUpload_analyser]
    exact h1
  · rw [handleFileUpload_edges, h2, fileLoadBase_gainNode, fileLoadBase_analyser]

theorem handleFileUpload_micSource (f : AudioFile) (s : VisState) :
    (handleFileUpload f s).micSource =
      (if s.isMicActive then stopMicrophone s else s).micSource := by
  unfold handleFileUpload
  dsimp only
  rw [initAudioContext_micSource]
  exact fileLoadBase_micSource f s

theorem mutexInv_stopMic (s : VisState) (h : MutexInv s) : MutexInv (stopMicrophone s) := by
  obtain ⟨h1, h2, h3⟩ := h
  refine ⟨?_, ?_, ?_⟩
  · intro n hn
    rw [show (stopMicrophone s).micSource = none by simp [stopMicrophone]] at hn
    cases hn
  · intro e he hdest
    rw [stopMicrophone_edges] at he
    have hsub := disconnectOpt_subset _ _ e he
    rw [show (stopMicrophone s).analyser = s.analyser by simp [stopMicrophone]]
    exact h2 e hsub hdest
  · rintro ⟨e, he, hdest⟩
    rw [stopMicrophone_edges] at he
    have hsub := disconnectOpt_subset _ _ e he
    obtain ⟨-, hf, -⟩ := h3 ⟨e, hsub, hdest⟩
    refine ⟨by simp [stopMicrophone], ?_, by simp [stopMicrophone]⟩
    rw [show (stopMicrophone s).fileName = s.fileName by simp [stopMicrophone]]
    exact hf

theorem mutexInv_stopFile (s : VisState) (h : MutexInv s) : MutexInv (stopAudioFile s) := by
  obtain ⟨h1, h2, h3⟩ := h
  have hfree : destFree (stopAudioFile s).edges := by
    rw [stopAudioFile_edges]
    intro e he hdest
    have hsub := disconnectOpt_subset _ _ e he
    exact destFree_disconnect_analyser s.edges s.analyser h2 e hsub hdest
  refine ⟨?_, ?_, ?_⟩
  · intro n hn
    rw [show (stopAudioFile s).micSource = s.micSource by simp [stopAudioFile]] at hn
    rw [show (stopAudioFile s).isMicActive = s.isMicActive by simp [stopAudioFile]]
    exact h1 n hn
  · intro e he hdest
    exact absurd hdest (hfree e he)
  · rintro ⟨e, he, hdest⟩
    exact absurd hdest (hfree e he)

theorem mutexInv_load (f : AudioFile) (s : VisState) (hname : f.name ≠ "")
    (h : MutexInv s) : MutexInv (handleFileUpload f s) := by
  obtain ⟨h1, h2, h3⟩ := h
  have hbsub : ∀ e ∈ (fileLoadBase f s).edges, e ∈ s.edges := by
    rw [fileLoadBase_edges]
    by_cases hm : s.isMicActive
    · rw [if_pos hm]
      intro e he
      rw [stopMicrophone_edges] at he
      exact disconnectOpt_subset _ _ e he
    · rw [if_neg hm]
      exact fun e he => he
  obtain ⟨an, src, han, hedges⟩ := handleFileUpload_edges_shape f s
  have htail : destFree
      (disconnectOpt (disconnectOpt (fileLoadBase f s).edges s.gainNode) s.analyser) := by
    apply destFree_disconnect_analyser
    intro e he hdest
    exact h2 e (hbsub e (disconnectOpt_subset _ _ e he)) hdest
  have hmicnone : (handleFileUpload f s).micSource = none := by
    rw [handleFileUpload_micSource]
    by_cases hm : s.isMicActive
    · rw [if_pos hm]
      simp [stopMicrophone]
    · rw [if_neg hm]
      rcases hsrc : s.micSource with _ | n
      · rfl
      · exact absurd (h1 n hsrc) (by simp [hm])
  refine ⟨?_, ?_, ?_⟩
  · intro n hn
    rw [hmicnone] at hn
    cases hn
  · intro e he hdest
    rw [hedges] at he
    rcases List.mem_cons.mp he with rfl | he2
    · exact han
    rcases List.mem_cons.mp he2 with rfl | he3
    · cases hdest
    · exact absurd hdest (htail e he3)
  · rintro ⟨e, he, hdest⟩
    refine ⟨hmicnone, ?_, handleFileUpload_isMicActive f s⟩
    rw [handleFileUpload_fileName]
    exact hname

theorem mutexInv_startMic (g : Bool) (s : VisState) (h : MutexInv s) :
    MutexInv (initMicAudioContext g s) := by
  obtain ⟨h1, h2, h3⟩ := h
  have hprepfree : destFree (micPrep s).edges := by
    rw [micPrep_edges]
    apply destFree_disconnect_analyser
    intro e he hdest
    have hin : e ∈ s.edges :=
      disconnectOpt_subset _ _ e (disconnectOpt_subset _ _ e he)
    exact h2 e hin hdest
  have hfree : destFree (initMicAudioContext g s).edges := by
    intro e he hdest
    unfold initMicAudioContext at he
    rcases micAcquire_edges_mem g (micPrep s) e he with hin | hne
    · exact hprepfree e hin hdest
    · exact hne hdest
  refine ⟨?_, ?_, ?_⟩
  · intro n hn
    unfold initMicAudioContext at hn ⊢
    rcases micAcquire_mode_cases g (micPrep s) with hact | ⟨hact, hsrc, -⟩
    · exact hact
    · rw [hact, micPrep_isMicActive]
      rw [hsrc, micPrep_micSource] at hn
      exact h1 n hn
  · intro e he hdest
    exact absurd hdest (hfree e he)
  · rintro ⟨e, he, hdest⟩
    exact absurd hdest (hfree e he)

theorem frameFire_edges (s : VisState) : (frameFire s).edges = s.edges := by
  unfold frameFire
  split
  · rfl
  · simp

theorem frameFire_micSource (s : VisState) : (frameFire s).micSource = s.micSource := by
  unfold frameFire
  split
  · rfl
  · simp

theorem frameFire_isMicActive (s : VisState) : (frameFire s).isMicActive = s.isMicActive := by
  unfold frameFire
  split
  · rfl
  · simp

theorem frameFire_analyser (s : VisState) : (frameFire s).analyser = s.analyser := by
  unfold frameFire
  split
  · rfl
  · simp

theorem frameFire_fileName (s : VisState) : (frameFire s).fileName = s.fileName := by
  unfold frameFire
  split
  · rfl
  · simp

theorem mutexInv_frame (s : VisState) (h : MutexInv s) : MutexInv (frameFire s) := by
  obtain ⟨h1, h2, h3⟩ := h
  refine ⟨?_, ?_, ?_⟩
  · intro n hn
    rw [frameFire_micSource] at hn
    rw [frameFire_isMicActive]
    exact h1 n hn
  · intro e he hdest
    rw [frameFire_edges] at he
    rw [frameFire_analyser]
    exact h2 e he hdest
  · rintro ⟨e, he, hdest⟩
    rw [frameFire_edges] at he
    obtain ⟨ha, hb, hc⟩ := h3 ⟨e, he, hdest⟩
    exact ⟨by rw [frameFire_micSource]; exact ha,
      by rw [frameFire_fileName]; exact hb,
      by rw [frameFire_isMicActive]; exact hc⟩

theorem mutexInv_step (op : Op) (s : VisState) (hv : validOp op = true)
    (h : MutexInv s) : MutexInv (step op s) := by
  cases op with
  | loadFile f =>
    refine mutexInv_load f s ?_ h
    simpa [validOp] using hv
  | startMic g => exact mutexInv_startMic g s h
  | stopMic => exact mutexInv_stopMic s h
  | stopFile => exact mutexInv_stopFile s h
  | frame => exact mutexInv_frame s h

theorem mutexInv_run (ops : List Op) (hv : ValidOps ops) : MutexInv (run ops) := by
  suffices h : ∀ s, MutexInv s → MutexInv (ops.foldl (fun s o => step o s) s) by
    refine h init ⟨?_, ?_, ?_⟩
    · intro n hn
      cases hn
    · intro e he
      cases he
    · rintro ⟨e, he, -⟩
      cases he
  induction ops with
  | nil => exact fun s hs => hs
  | cons o rest ih =>
    intro s hs
    have hvo : validOp o = true := hv o (List.mem_cons_self o rest)
    have hvr : ValidOps rest := fun o' ho' => hv o' (List.mem_cons_of_mem o ho')
    exact ih hvr _ (mutexInv_step o s hvo hs)

/-- C1: over every valid operation sequence, at most one of the file
engine-output chain and the mic analysis connection is live; the
engine-output connection exists only in `FileActive`; and the
microphone source is never connected to the engine output. -/
theorem mutual_exclusion (ops : List Op) (hv : ValidOps ops) :
    (¬ (destLive (run ops) ∧ micConn (run ops))) ∧
    (destLive (run ops) → modeOf (run ops) = Mode.fileActive) ∧
    (∀ e ∈ (run ops).edges, (run ops).micSource = some e.1 →
      e.2 ≠ Endpoint.destination) := by
  obtain ⟨h1, h2, h3⟩ := mutexInv_run ops hv
  refine ⟨?_, ?_, ?_⟩
  · rintro ⟨hdest, e, he, hsrc⟩
    obtain ⟨hnone, -, -⟩ := h3 hdest
    rw [hnone] at hsrc
    cases hsrc
  · intro hdest
    obtain ⟨-, hf, hm⟩ := h3 hdest
    unfold modeOf
    rw [hm]
    simp [hf]
  · intro e he hsrc hdest
    obtain ⟨hnone, -, -⟩ := h3 ⟨e, he, hdest⟩
    rw [hnone] at hsrc
    cases hsrc

/-- C1 witness: the invariant evaluated on a concrete valid sequence
that exercises file and microphone modes. -/
theorem mutual_exclusion_witness :
    ValidOps [Op.loadFile ⟨"a"⟩, Op.startMic true, Op.frame, Op.stopMic,
      Op.loadFile ⟨"b"⟩] ∧
    ¬ (destLive (run [Op.loadFile ⟨"a"⟩, Op.startMic true, Op.frame, Op.stopMic,
        Op.loadFile ⟨"b"⟩]) ∧
      micConn (run [Op.loadFile ⟨"a"⟩, Op.startMic true, Op.frame, Op.stopMic,
        Op.loadFile ⟨"b"⟩])) ∧
    (destLive (run [Op.loadFile ⟨"a"⟩, Op.startMic true, Op.frame, Op.stopMic,
        Op.loadFile ⟨"b"⟩]) →
      modeOf (run [Op.loadFile ⟨"a"⟩, Op.startMic true, Op.frame, Op.stopMic,
        Op.loadFile ⟨"b"⟩]) = Mode.fileActive) := by
  have hv : ValidOps [Op.loadFile ⟨"a"⟩, Op.startMic true, Op.frame, Op.stopMic,
      Op.loadFile ⟨"b"⟩] := by
    intro o ho
    fin_cases ho <;> decide
  obtain ⟨g1, g2, -⟩ := mutual_exclusion _ hv
  exact ⟨hv, g1, g2⟩

/-! ### Claim C5 — repeated `loadFile` equals `stopFile` then `loadFile` -/

/-- The audio-graph view of a state: everything except the frame
scheduler slots (`animationId`, `pendingFrame`) and the transport
display counters (`currentTime`, `duration`), which are not part of the
graph state the claim speaks about. -/
structure GraphView where
  audioContext : Option Nat
  analyser : Option Nat
  fileSource : Option Nat
  micSource : Option Nat
  micStream : Option Nat
  gainNode : Option Nat
  edges : List (Nat × Endpoint)
  nextId : Nat
  stoppedStreams : List Nat
  micRequests : Nat
  audioElem : AudioElement
  isPlaying : Bool
  fileName : String
  isMicActive : Bool
  micPermission : MicPerm
deriving DecidableEq, Repr

/-- Project a state to its graph view. -/
def graphView (s : VisState) : GraphView :=
  { audioContext := s.audioContext, analyser := s.analyser, fileSource := s.fileSource,
    micSource := s.micSource, micStream := s.micStream, gainNode := s.gainNode,
    edges := s.edges, nextId := s.nextId, stoppedStreams := s.stoppedStreams,
    micRequests := s.micRequests, audioElem := s.audioElem, isPlaying := s.isPlaying,
    fileName := s.fileName, isMicActive := s.isMicActive,
    micPermission := s.micPermission }

theorem ensureContext_audioContext_char (s : VisState) :
    (ensureContext s).audioContext = some (s.audioContext.getD s.nextId) := by
  unfold ensureContext
  rcases h : s.audioContext with _ | c <;> simp [h]

theorem ensureContext_nextId_char (s : VisState) :
    (ensureContext s).nextId = s.nextId + (if s.audioContext.isSome then 0 else 1) := by
  unfold ensureContext
  rcases h : s.audioContext with _ | c <;> simp [h]

theorem initAudioContext_fileSource_char (s : VisState) :
    (initAudioContext s).fileSource = some (s.fileSource.getD (ensureContext s).nextId) := by
  unfold initAudioContext
  dsimp only
  split
  · next n heq =>
    have hf : s.fileSource = some n := by simpa using heq
    simp [hf]
  · next heq =>
    have hf : s.fileSource = none := by simpa using heq
    simp [hf]

theorem initAudioContext_analyser_char (s : VisState) :
    (initAudioContext s).analyser =
      some ((ensureContext s).nextId + (if s.fileSource.isSome then 0 else 1)) := by
  unfold initAudioContext
  dsimp only
  split
  · next n heq =>
    have hf : s.fileSource = some n := by simpa using heq
    simp [hf]
  · next heq =>
    have hf : s.fileSource = none := by simpa using heq
    simp [hf]

theorem initAudioContext_nextId_char (s : VisState) :
    (initAudioContext s).nextId =
      (ensureContext s).nextId + (if s.fileSource.isSome then 1 else 2) := by
  unfold initAudioContext
  dsimp only
  split
  · next n heq =>
    have hf : s.fileSource = some n := by simpa using heq
    simp [hf]
  · next heq =>
    have hf : s.fileSource = none := by simpa using heq
    simp [hf]

theorem initAudioContext_edges_char (s : VisState) :
    (initAudioContext s).edges =
      ((ensureContext s).nextId + (if s.fileSource.isSome then 0 else 1),
        Endpoint.destination) ::
      (s.fileSource.getD (ensureContext s).nextId,
        Endpoint.node ((ensureContext s).nextId + (if s.fileSource.isSome then 0 else 1))) ::
      disconnectOpt (disconnectOpt s.edges s.gainNode) s.analyser := by
  unfold initAudioContext
  dsimp only
  split
  · next n heq =>
    have hf : s.fileSource = some n := by simpa using heq
    simp [hf]
  · next heq =>
    have hf : s.fileSource = none := by simpa using heq
    simp [hf]

theorem handleFileUpload_graphView_char (f : AudioFile) (x : VisState) :
    graphView (handleFileUpload f x) =
      { audioContext := some (x.audioContext.getD x.nextId),
        analyser := some (x.nextId + (if x.audioContext.isSome then 0 else 1) +
          (if x.fileSource.isSome then 0 else 1)),
        fileSource := some (x.fileSource.getD
          (x.nextId + (if x.audioContext.isSome then 0 else 1))),
        micSource := (if x.isMicActive then none else x.micSource),
        micStream := (if x.isMicActive then none else x.micStream),
        gainNode := x.gainNode,
        edges := (x.nextId + (if x.audioContext.isSome then 0 else 1) +
            (if x.fileSource.isSome then 0 else 1), Endpoint.destination) ::
          (x.fileSource.getD (x.nextId + (if x.audioContext.isSome then 0 else 1)),
            Endpoint.node (x.nextId + (if x.audioContext.isSome then 0 else 1) +
              (if x.fileSource.isSome then 0 else 1))) ::
          disconnectOpt (disconnectOpt (fileLoadBase f x).edges x.gainNode) x.analyser,
        nextId := x.nextId + (if x.audioContext.isSome then 0 else 1) +
          (if x.fileSource.isSome then 1 else 2),
        stoppedStreams := (if x.isMicActive then
            x.micStream.elim x.stoppedStreams (fun m => m :: x.stoppedStreams)
          else x.stoppedStreams),
        micRequests := x.micRequests,
        audioElem := ⟨objectURL f, 0, false⟩,
        isPlaying := true,
        fileName := f.name,
        isMicActive := false,
        micPermission := x.micPermission } := by
  simp only [graphView]
  rw [GraphView.mk.injEq]
  refine ⟨?_, ?_, ?_, ?_, ?_, ?_, ?_, ?_, ?_, ?_, ?_, ?_, ?_, ?_, ?_⟩
  · rw [handleFileUpload_audioContext, initAudioContext_audioContext,
      ensureContext_audioContext_char, fileLoadBase_audioContext, fileLoadBase_nextId]
  · rw [handleFileUpload_analyser, initAudioContext_analyser_char,
      ensureContext_nextId_char]
    simp only [fileLoadBase_nextId, fileLoadBase_audioContext, fileLoadBase_fileSource]
  · rw [handleFileUpload_fileSource, initAudioContext_fileSource_char,
      ensureContext_nextId_char]
    simp only [fileLoadBase_nextId, fileLoadBase_audioContext, fileLoadBase_fileSource]
  · rw [handleFileUpload_micSource]
    by_cases hm : x.isMicActive <;> simp [hm, stopMicrophone]
  · rw [handleFileUpload_micStream]
    by_cases hm : x.isMicActive <;> simp [hm, stopMicrophone]
  · show (initAudioContext (fileLoadBase f x)).gainNode = x.gainNode
    rw [initAudioContext_gainNode, fileLoadBase_gainNode]
  · rw [handleFileUpload_edges, initAudioContext_edges_char, ensureContext_nextId_char]
    simp only [fileLoadBase_nextId, fileLoadBase_audioContext, fileLoadBase_fileSource,
      fileLoadBase_gainNode, fileLoadBase_analyser]
  · rw [handleFileUpload_nextId, initAudioContext_nextId_char, ensureContext_nextId_char]
    simp only [fileLoadBase_nextId, fileLoadBase_audioContext, fileLoadBase_fileSource]
  · show (initAudioContext (fileLoadBase f x)).stoppedStreams = _
    rw [initAudioContext_stoppedStreams, fileLoadBase_stoppedStreams]
    by_cases hm : x.isMicActive <;> simp [hm, stopMicrophone]
  · show (initAudioContext (fileLoadBase f x)).micRequests = x.micRequests
    rw [initAudioContext_micRequests, fileLoadBase_micRequests]
  · exact handleFileUpload_audioElem f x
  · rfl
  · exact handleFileUpload_fileName f x
  · exact handleFileUpload_isMicActive f x
  · show (initAudioContext (fileLoadBase f x)).micPermission = x.micPermission
    rw [initAudioContext_micPermission, fileLoadBase_micPermission]

theorem dOpt_key1 (l : List (Nat × Endpoint)) (a g : Option Nat) :
    disconnectOpt (disconnectOpt (disconnectOpt (disconnectOpt l a) g) g) a =
      disconnectOpt (disconnectOpt l g) a := by
  rw [disconnectOpt_idem (disconnectOpt l a) g, disconnectOpt_comm l a g,
    disconnectOpt_idem (disconnectOpt l g) a]

theorem dOpt_key2 (l : List (Nat × Endpoint)) (a g ms : Option Nat) :
    disconnectOpt (disconnectOpt (disconnectOpt
        (disconnectOpt (disconnectOpt l a) g) ms) g) a =
      disconnectOpt (disconnectOpt (disconnectOpt l ms) g) a := by
  rw [disconnectOpt_comm (disconnectOpt (disconnectOpt l a) g) ms g]
  rw [disconnectOpt_idem (disconnectOpt l a) g]
  rw [disconnectOpt_comm l a g]
  rw [disconnectOpt_comm (disconnectOpt l g) a ms]
  rw [disconnectOpt_idem (disconnectOpt (disconnectOpt l g) ms) a]
  rw [disconnectOpt_comm l g ms]

/-- C5: calling `loadFile` while a file is already active produces the
same graph state as calling `stopFile` first and then `loadFile` with
the same file: the file-source binding is reused, the analysis node is
the same fresh instance, playback is reset to the new file, and every
graph-view component agrees.  (Only the transport display counters and
the scheduler slot, which are not graph state, can differ.) -/
theorem load_equiv_stop_load (f : AudioFile) (s : VisState) :
    graphView (handleFileUpload f s) =
      graphView (handleFileUpload f (stopAudioFile s)) := by
  rw [handleFileUpload_graphView_char, handleFileUpload_graphView_char]
  have hctx : (stopAudioFile s).audioContext = s.audioContext := by simp [stopAudioFile]
  have hnext : (stopAudioFile s).nextId = s.nextId := by simp [stopAudioFile]
  have hfs : (stopAudioFile s).fileSource = s.fileSource := by simp [stopAudioFile]
  have hmsrc : (stopAudioFile s).micSource = s.micSource := by simp [stopAudioFile]
  have hmst : (stopAudioFile s).micStream = s.micStream := by simp [stopAudioFile]
  have hgn : (stopAudioFile s).gainNode = s.gainNode := by simp [stopAudioFile]
  have han : (stopAudioFile s).analyser = s.analyser := by simp [stopAudioFile]
  have hact : (stopAudioFile s).isMicActive = s.isMicActive := by simp [stopAudioFile]
  have hstp : (stopAudioFile s).stoppedStreams = s.stoppedStreams := by
    simp [stopAudioFile]
  have hreq : (stopAudioFile s).micRequests = s.micRequests := by simp [stopAudioFile]
  have hperm : (stopAudioFile s).micPermission = s.micPermission := by
    simp [stopAudioFile]
  rw [GraphView.mk.injEq]
  refine ⟨by rw [hctx, hnext], by rw [hctx, hnext, hfs], by rw [hctx, hnext, hfs],
    by rw [hact, hmsrc], by rw [hact, hmst], by rw [hgn], ?_,
    by rw [hctx, hnext, hfs], by rw [hact, hmst, hstp], by rw [hreq], rfl, rfl, rfl,
    rfl, by rw [hperm]⟩
  rw [hctx, hnext, hfs, hgn, han]
  rw [List.cons.injEq, List.cons.injEq]
  refine ⟨rfl, rfl, ?_⟩
  rw [fileLoadBase_edges, fileLoadBase_edges, hact]
  by_cases hm : s.isMicActive
  · rw [if_pos hm, if_pos hm, stopMicrophone_edges, stopMicrophone_edges, hmsrc,
      stopAudioFile_edges]
    exact (dOpt_key2 s.edges s.analyser s.gainNode s.micSource).symm
  · rw [if_neg hm, if_neg hm, stopAudioFile_edges]
    exact (dOpt_key1 s.edges s.analyser s.gainNode).symm

/-! ### Renderer lemmas -/

theorem drawBarsLoop_mem (height barWidth len : ℚ) :
    ∀ (data : List Nat) (i0 : Nat) (x0 : ℚ) (b : Bar),
      b ∈ drawBarsLoop height barWidth len data i0 x0 →
      ∃ i v x, v ∈ data ∧ b = mkBar height barWidth len i v x := by
  intro data
  induction data with
  | nil =>
    intro i0 x0 b hb
    simp [drawBarsLoop] at hb
  | cons v rest ih =>
    intro i0 x0 b hb
    rw [drawBarsLoop] at hb
    rcases List.mem_cons.mp hb with rfl | hb2
    · exact ⟨i0, v, x0, List.mem_cons_self v rest, rfl⟩
    · obtain ⟨i, v', x, hv', hbe⟩ := ih (i0 + 1) (x0 + barWidth + 1) b hb2
      exact ⟨i, v', x, List.mem_cons_of_mem v hv', hbe⟩

theorem drawCircleLoop_mem (radius maxSpikeLength spikes : ℚ) :
    ∀ (data : List Nat) (i0 : Nat) (sp : Spike),
      sp ∈ drawCircleLoop radius maxSpikeLength spikes data i0 →
      ∃ i v, v ∈ data ∧ sp = mkSpike radius maxSpikeLength spikes i v := by
  intro data
  induction data with
  | nil =>
    intro i0 sp hsp
    simp [drawCircleLoop] at hsp
  | cons v rest ih =>
    intro i0 sp hsp
    rw [drawCircleLoop] at hsp
    rcases List.mem_cons.mp hsp with rfl | hsp2
    · exact ⟨i0, v, List.mem_cons_self v rest, rfl⟩
    · obtain ⟨i, v', hv', hse⟩ := ih (i0 + 1) sp hsp2
      exact ⟨i, v', List.mem_cons_of_mem v hv', hse⟩

theorem drawBarsLoop_getElem (height barWidth len : ℚ) :
    ∀ (data : List Nat) (i0 : Nat) (x0 : ℚ) (i : Nat),
      (drawBarsLoop height barWidth len data i0 x0)[i]? =
        (data[i]?).map
          (fun v => mkBar height barWidth len (i0 + i) v (x0 + i * (barWidth + 1))) := by
  intro data
  induction data with
  | nil =>
    intro i0 x0 i
    simp [drawBarsLoop]
  | cons v rest ih =>
    intro i0 x0 i
    cases i with
    | zero =>
      simp [drawBarsLoop]
    | succ j =>
      rw [drawBarsLoop]
      rw [List.getElem?_cons_succ, List.getElem?_cons_succ]
      rw [ih (i0 + 1) (x0 + barWidth + 1) j]
      rcases hj : rest[j]? with _ | v'
      · rfl
      · simp only [Option.map_some']
        have e1 : i0 + 1 + j = i0 + (j + 1) := by omega
        have e2 : x0 + barWidth + 1 + (j : ℚ) * (barWidth + 1) =
            x0 + ((j : ℚ) + 1) * (barWidth + 1) := by ring
        rw [e1, e2]
        congr 2
        push_cast
        ring

/-! ### Claim C7 — bar-mode geometry -/

/-- C7: in bar mode every bar has width `width / N * 2.5`; bar `i` has
height `magnitude/255 * height*0.8`, is anchored to the bottom edge
(`y = height - barHeight`), is coloured `hsl(i/N*360, 100%, 50%)`, and
carries a 2-unit cap at 30% lightness immediately above its top
(`capY = y - 2`); successive bars are placed with a 1-unit gap
(`x` advances by `barWidth + 1`); and for a 128-bin snapshot on a
512-unit-wide surface the bar width is 10. -/
theorem bars_geometry :
    (∀ (w h : ℚ) (data : List Nat) (i : Nat), i < data.length →
      ∃ b, (drawBars w h data)[i]? = some b ∧
        b.w = w / (data.length : ℚ) * 2.5 ∧
        (∀ v, data[i]? = some v → b.h = (v : ℚ) / 255 * (h * 0.8)) ∧
        b.y = h - b.h ∧
        b.hue = (i : ℚ) / (data.length : ℚ) * 360 ∧
        b.sat = 100 ∧ b.light = 50 ∧
        b.capY = h - b.h - 2 ∧ b.capH = 2 ∧ b.capLight = 30 ∧
        b.x = (i : ℚ) * (b.w + 1)) ∧
    (∀ (w h : ℚ) (data : List Nat) (i : Nat) (b b' : Bar),
      (drawBars w h data)[i]? = some b → (drawBars w h data)[i + 1]? = some b' →
      b'.x = b.x + b.w + 1) ∧
    (∀ (h : ℚ) (data : List Nat), data.length = 128 →
      ∀ b ∈ drawBars 512 h data, b.w = 10) := by
  refine ⟨?_, ?_, ?_⟩
  · intro w h data i hi
    have hv : data[i]? = some data[i] := List.getElem?_eq_getElem hi
    unfold drawBars
    dsimp only
    rw [drawBarsLoop_getElem, hv, Option.map_some']
    refine ⟨_, rfl, by simp [mkBar], ?_, by simp [mkBar], ?_, by simp [mkBar],
      by simp [mkBar], by simp [mkBar], by simp [mkBar], by simp [mkBar], ?_⟩
    · intro v2 hv2
      injection hv2 with h2
      subst h2
      simp [mkBar]
    · simp [mkBar]
    · simp [mkBar]
  · intro w h data i b b' hb hb2
    unfold drawBars at hb hb2
    dsimp only at hb hb2
    rw [drawBarsLoop_getElem] at hb hb2
    rcases hv : data[i]? with _ | v
    · rw [hv] at hb
      cases hb
    rcases hv2 : data[i + 1]? with _ | v2
    · rw [hv2] at hb2
      cases hb2
    rw [hv, Option.map_some'] at hb
    rw [hv2, Option.map_some'] at hb2
    injection hb with hb
    injection hb2 with hb2
    subst hb
    subst hb2
    simp only [mkBar]
    push_cast
    ring
  · intro h data hlen b hb
    unfold drawBars at hb
    dsimp only at hb
    obtain ⟨i, v, x, -, rfl⟩ := drawBarsLoop_mem _ _ _ _ _ _ _ hb
    simp [mkBar, hlen]
    norm_num

/-- C7 witness: the geometry evaluated at bin 0 of an all-200 128-bin
snapshot on a 512 by 400 surface, and the width-10 fact. -/
theorem bars_geometry_witness :
    (∃ b, (drawBars 512 400 (List.replicate 128 200))[0]? = some b ∧ b.w = 10) ∧
    (∀ b ∈ drawBars 512 400 (List.replicate 128 200), b.w = 10) := by
  obtain ⟨b, hb, hw, -⟩ := bars_geometry.1 512 400 (List.replicate 128 200) 0 (by simp)
  refine ⟨⟨b, hb, ?_⟩, bars_geometry.2.2 400 (List.replicate 128 200) (by simp)⟩
  rw [hw]
  norm_num

theorem foldl_add_replicate_zero (n : Nat) (acc : Nat) :
    (List.replicate n (0 : Nat)).foldl (· + ·) acc = acc := by
  induction n generalizing acc with
  | zero => rfl
  | succ k ih =>
    rw [List.replicate_succ, List.foldl_cons]
    exact ih acc

/-! ### Claim C6 — renderer edge cases -/

/-- C6: on an all-zero 128-bin snapshot every bar height is 0 and the
radial renderer succeeds (no division by zero, no error from the
average), with average 0 and the outer glow disc radius exactly 25,
every spike collapsed to the base circle; on an all-255 snapshot every
bar height is `height * 0.8` and every spike reaches
`radius + maxSpikeLength`. -/
theorem renderer_edge_cases (w h : ℚ) :
    (∀ b ∈ drawBars w h (List.replicate 128 0), b.h = 0) ∧
    (∃ g, drawCircle w h (List.replicate 128 0) = some g ∧
      g.avgFrequency = 0 ∧ g.outerGlowRadius = 25 ∧
      ∀ sp ∈ g.spikes, sp.spikeLength = g.radius) ∧
    (∀ b ∈ drawBars w h (List.replicate 128 255), b.h = h * 0.8) ∧
    (∃ g, drawCircle w h (List.replicate 128 255) = some g ∧
      ∀ sp ∈ g.spikes, sp.spikeLength = g.radius + g.maxSpikeLength) := by
  refine ⟨?_, ?_, ?_, ?_⟩
  · intro b hb
    unfold drawBars at hb
    dsimp only at hb
    obtain ⟨i, v, x, hv, rfl⟩ := drawBarsLoop_mem _ _ _ _ _ _ _ hb
    have hv0 : v = 0 := List.eq_of_mem_replicate hv
    subst hv0
    simp [mkBar]
  · have hsum : jsReduceSum (List.replicate 128 0) = some 0 := by
      rw [List.replicate_succ]
      show some ((List.replicate 127 (0 : Nat)).foldl (· + ·) 0) = some 0
      rw [foldl_add_replicate_zero]
    unfold drawCircle
    dsimp only
    rw [hsum]
    refine ⟨_, rfl, ?_, ?_, ?_⟩
    · norm_num
    · norm_num
    · intro sp hsp
      simp only at hsp
      obtain ⟨i, v, hv, rfl⟩ := drawCircleLoop_mem _ _ _ _ _ _ hsp
      have hv0 : v = 0 := List.eq_of_mem_replicate hv
      subst hv0
      simp [mkSpike]
  · intro b hb
    unfold drawBars at hb
    dsimp only at hb
    obtain ⟨i, v, x, hv, rfl⟩ := drawBarsLoop_mem _ _ _ _ _ _ _ hb
    have hv0 : v = 255 := List.eq_of_mem_replicate hv
    subst hv0
    simp [mkBar]
  · obtain ⟨total, hsum⟩ : ∃ total, jsReduceSum (List.replicate 128 255) = some total := by
      rw [List.replicate_succ]
      exact ⟨_, rfl⟩
    unfold drawCircle
    dsimp only
    rw [hsum]
    refine ⟨_, rfl, ?_⟩
    intro sp hsp
    simp only at hsp
    obtain ⟨i, v, hv, rfl⟩ := drawCircleLoop_mem _ _ _ _ _ _ hsp
    have hv0 : v = 255 := List.eq_of_mem_replicate hv
    subst hv0
    simp [mkSpike]

/-- C6 witness: the edge cases evaluated on a concrete 512 by 400
surface. -/
theorem renderer_edge_cases_witness :
    (∀ b ∈ drawBars 512 400 (List.replicate 128 0), b.h = 0) ∧
    (∃ g, drawCircle 512 400 (List.replicate 128 0) = some g ∧
      g.outerGlowRadius = 25) := by
  obtain ⟨h1, ⟨g, hg, -, hglow, -⟩, -, -⟩ := renderer_edge_cases 512 400
  exact ⟨h1, g, hg, hglow⟩
